import Mathlib

/-!
# netfunnel-go: ticket decoding and the ticket protocol

A shallow embedding of `netfunnel.go` and `util.go`.

* Go strings are byte sequences: `GoString = List Byte`.
* A Go function either returns or panics with a run-time error
  (`index out of range [i] with length n`): `Exec`.
* The HTTP requester and the clock are inputs (`Env`); every outbound request and
  every sleep is recorded in a log (`World`).
* The polling loop of `GetTicket` is unbounded in the source; it is embedded with
  a fuel argument, and `none` stands for "fuel exhausted".
-/

namespace NetFunnel

/-! ## Go values -/

abbrev Byte := Fin 256

abbrev GoString := List Byte

/-- The bytes (UTF-8) of a string literal of the source. -/
def lit (s : String) : GoString :=
  (s.data.flatMap String.utf8EncodeChar).map (fun b => b.val)

/-- Outcome of running a Go function that may panic on a slice index. -/
inductive Exec (α : Type) where
  /-- the function returned normally -/
  | ret (a : α)
  /-- runtime error: index out of range [index] with length len -/
  | panic (index len : Nat)
  deriving DecidableEq, Repr

/-- Go slice indexing `xs[i]`: a run-time panic when `i` is out of range. -/
def index {α β : Type} (xs : List α) (i : Nat) (k : α → Exec β) : Exec β :=
  match xs.get? i with
  | some x => k x
  | none => .panic i xs.length

/-- Errors produced by the standard library functions the package calls. -/
inductive StdError where
  /-- strconv.ErrSyntax, from `strconv.Atoi` on the given input -/
  | atoiInvalid (input : GoString)
  /-- strconv.ErrRange, from `strconv.Atoi` on the given input -/
  | atoiRange (input : GoString)
  /-- url.EscapeError, from `url.QueryUnescape` on the given fragment -/
  | escape (fragment : GoString)
  /-- the error "invalid semicolon separator in query" of `url.ParseQuery` -/
  | semicolon
  deriving DecidableEq, Repr

/-- A Go `error` value of this package. -/
inductive GoError where
  /-- an `errors.New(msg)`, or a `fmt.Errorf` whose verbs are all rendered in `msg` -/
  | new (msg : GoString)
  /-- a `fmt.Errorf(msg ++ "%s", cause)`: the message is `msg` followed by the text of the cause -/
  | wrap (msg : GoString) (cause : StdError)
  deriving DecidableEq, Repr

/-- The literal part of an error's message (all of it for `new`). -/
def GoError.text : GoError → GoString
  | .new msg => msg
  | .wrap msg _ => msg

/-! ## package strings (separators are single bytes at every call site) -/

namespace strings

/-- Model of `strings.Cut(s, sep)`: text before the first `sep`, and the text after it
when `sep` occurs. -/
def Cut (s : GoString) (sep : Byte) : GoString × Option GoString :=
  match s with
  | [] => ([], none)
  | c :: cs =>
    if c = sep then ([], some cs)
    else ((c :: (Cut cs sep).1), (Cut cs sep).2)

/-- Model of `strings.Count(s, sep)`. -/
def Count (s : GoString) (sep : Byte) : Nat :=
  s.count sep

/-- Model of `genSplit(s, sep, 0, n)` for `n ≥ 0`: at most `n` pieces, the last one
being the unsplit remainder. -/
def genSplit (s : GoString) (sep : Byte) : Nat → List GoString
  | 0 => []
  | 1 => [s]
  | n + 2 =>
    match Cut s sep with
    | (a, none) => [a]
    | (a, some rest) => a :: genSplit rest sep (n + 1)

/-- Model of `strings.Split(s, sep)`: `genSplit` with `n = Count(s, sep) + 1`. -/
def Split (s : GoString) (sep : Byte) : List GoString :=
  genSplit s sep (Count s sep + 1)

/-- Model of `strings.SplitN(s, sep, n)` for `n ≥ 0`. -/
def SplitN (s : GoString) (sep : Byte) (n : Nat) : List GoString :=
  genSplit s sep n

/-- Model of `strings.Trim(s, cutset)`: all leading and trailing bytes contained in
`cutset` are removed. -/
def Trim (s : GoString) (cutset : GoString) : GoString :=
  ((s.dropWhile (fun c => decide (c ∈ cutset))).reverse.dropWhile
    (fun c => decide (c ∈ cutset))).reverse

/-- Model of `strings.Contains(s, sep)` for a one-byte `sep`. -/
def Contains (s : GoString) (sep : Byte) : Bool :=
  decide (sep ∈ s)

end strings

/-! ## package strconv (`int` is 64 bits wide) -/

namespace strconv

/-- Value of a decimal digit byte, `none` for any other byte. -/
def digitVal (c : Byte) : Option Nat :=
  if 48 ≤ c.val ∧ c.val ≤ 57 then some (c.val - 48) else none

/-- The digit loop of the fast path of `strconv.Atoi`. -/
def fastLoop : GoString → Nat → Option Nat
  | [], n => some n
  | ch :: rest, n =>
    match digitVal ch with
    | none => none
    | some d => fastLoop rest (n * 10 + d)

/-- Why a digit string is rejected. -/
inductive NumErr where
  | invalid
  | range
  deriving DecidableEq, Repr

def maxUint64 : Nat := 2 ^ 64 - 1

/-- The digit loop of `strconv.ParseUint(s, 10, 64)`. -/
def uintLoop : GoString → Nat → Except NumErr Nat
  | [], n => .ok n
  | c :: rest, n =>
    match digitVal c with
    | none => .error .invalid
    | some d =>
      if n ≥ maxUint64 / 10 + 1 then .error .range
      else if n * 10 + d > maxUint64 then .error .range
      else uintLoop rest (n * 10 + d)

/-- Model of `strconv.ParseUint(s, 10, 64)`. -/
def ParseUint (s : GoString) : Except NumErr Nat :=
  if s = [] then .error .invalid else uintLoop s 0

/-- Model of `strconv.ParseInt(s, 10, 0)`. -/
def ParseInt (s : GoString) : Except NumErr Int :=
  if s = [] then .error .invalid
  else
    let neg := decide (s.head? = some 45)
    let s1 := if s.head? = some 43 ∨ s.head? = some 45 then s.tail else s
    match ParseUint s1 with
    | .error .invalid => .error .invalid
    | .error .range => .error .range
    | .ok un =>
      if !neg ∧ un ≥ 2 ^ 63 then .error .range
      else if neg ∧ un > 2 ^ 63 then .error .range
      else .ok (if neg then - (un : Int) else (un : Int))

/-- Model of `strconv.Atoi(s)`. -/
def Atoi (s : GoString) : Except StdError Int :=
  if 0 < s.length ∧ s.length < 19 then
    let signed := decide (s.head? = some 45 ∨ s.head? = some 43)
    let s1 := if signed then s.tail else s
    if signed ∧ s1.length < 1 then .error (.atoiInvalid s)
    else
      match fastLoop s1 0 with
      | none => .error (.atoiInvalid s)
      | some n => .ok (if s.head? = some 45 then - (n : Int) else (n : Int))
  else
    match ParseInt s with
    | .error .invalid => .error (.atoiInvalid s)
    | .error .range => .error (.atoiRange s)
    | .ok i => .ok i

/-- Decimal digits of `n`, most significant first (`fuel` bounds the number of digits). -/
def digits : Nat → Nat → GoString → GoString
  | 0, _, acc => acc
  | fuel + 1, n, acc =>
    if n < 10 then Fin.ofNat (48 + n) :: acc
    else digits fuel (n / 10) (Fin.ofNat (48 + n % 10) :: acc)

/-- Model of `strconv.FormatInt(i, 10)`, which renders `%d` and `fmt.Sprint` of an
integer. -/
def FormatInt (i : Int) : GoString :=
  if i < 0 then 45 :: digits (i.natAbs + 1) i.natAbs []
  else digits (i.natAbs + 1) i.natAbs []

end strconv

/-! ## package net/url -/

namespace url

/-- Model of `url.Values` (`map[string][]string`): keys are pairwise distinct. -/
abbrev Values := List (GoString × List GoString)

/-- Lookup `v[key]` (`nil` when absent). -/
def Values.lookup (v : Values) (key : GoString) : List GoString :=
  match v.find? (fun p => decide (p.1 = key)) with
  | some p => p.2
  | none => []

/-- Model of `Values.Get`. -/
def Values.Get (v : Values) (key : GoString) : GoString :=
  match Values.lookup v key with
  | [] => []
  | x :: _ => x

/-- Model of `Values.Add`: `v[key] = append(v[key], value)`. -/
def Values.Add (v : Values) (key value : GoString) : Values :=
  if v.any (fun p => decide (p.1 = key)) then
    v.map (fun p => if p.1 = key then (p.1, p.2 ++ [value]) else p)
  else v ++ [(key, [value])]

def ishex (c : Byte) : Bool :=
  (48 ≤ c.val && c.val ≤ 57) || (97 ≤ c.val && c.val ≤ 102) || (65 ≤ c.val && c.val ≤ 70)

def unhex (c : Byte) : Nat :=
  if 48 ≤ c.val ∧ c.val ≤ 57 then c.val - 48
  else if 97 ≤ c.val ∧ c.val ≤ 102 then c.val - 97 + 10
  else if 65 ≤ c.val ∧ c.val ≤ 70 then c.val - 65 + 10
  else 0

/-- Model of `url.QueryUnescape`. -/
def QueryUnescape : GoString → Except StdError GoString
  | [] => .ok []
  | c :: cs =>
    if c = 37 then
      match cs with
      | h1 :: h2 :: rest =>
        if ishex h1 && ishex h2 then
          match QueryUnescape rest with
          | .ok t => .ok (Fin.ofNat (unhex h1 * 16 + unhex h2) :: t)
          | .error e => .error e
        else .error (.escape ((c :: cs).take 3))
      | _ => .error (.escape ((c :: cs).take 3))
    else
      match QueryUnescape cs with
      | .ok t => .ok ((if c = 43 then 32 else c) :: t)
      | .error e => .error e

/-- One iteration of the loop of `url.parseQuery` on the piece `key` (the text up to
the next ampersand). -/
def parseQueryStep (st : Values × Option StdError) (key : GoString) :
    Values × Option StdError :=
  if strings.Contains key 59 then (st.1, some .semicolon)
  else if key = [] then st
  else
    let kv := strings.Cut key 61
    match QueryUnescape kv.1 with
    | .error e1 => (st.1, if st.2 = none then some e1 else st.2)
    | .ok k =>
      match QueryUnescape (kv.2.getD []) with
      | .error e1 => (st.1, if st.2 = none then some e1 else st.2)
      | .ok value => (Values.Add st.1 k value, st.2)

/-- Model of `url.ParseQuery`: the values parsed, and the first error met (if any). -/
def ParseQuery (query : GoString) : Values × Option StdError :=
  (strings.Split query 38).foldl parseQueryStep ([], none)

/-- Unreserved bytes, which `url.QueryEscape` leaves as they are. -/
def unreserved (c : Byte) : Bool :=
  (97 ≤ c.val && c.val ≤ 122) || (65 ≤ c.val && c.val ≤ 90) || (48 ≤ c.val && c.val ≤ 57)
    || c = 45 || c = 95 || c = 46 || c = 126

/-- Upper-case hexadecimal digit of a nibble. -/
def upperhex (n : Nat) : Byte :=
  if n < 10 then Fin.ofNat (48 + n) else Fin.ofNat (55 + n)

/-- Model of `url.QueryEscape`. -/
def QueryEscape (s : GoString) : GoString :=
  s.flatMap (fun c =>
    if unreserved c then [c]
    else if c = 32 then [43]
    else [37, upperhex (c.val / 16), upperhex (c.val % 16)])

/-- Byte-wise order of Go strings (`a <= b`). -/
def strLe : GoString → GoString → Bool
  | [], _ => true
  | _ :: _, [] => false
  | a :: as, b :: bs => if a < b then true else if b < a then false else strLe as bs

/-- Insertion into a list of entries sorted by key. -/
def insertSorted (p : GoString × List GoString) : Values → Values
  | [] => [p]
  | q :: qs => if strLe p.1 q.1 then p :: q :: qs else q :: insertSorted p qs

/-- The entries in ascending key order (`slices.Sort(keys)`). -/
def sortByKey (v : Values) : Values :=
  v.foldr insertSorted []

/-- Model of `Values.Encode`: `key=value` pairs, escaped, sorted by key, joined by ampersands. -/
def Values.Encode (v : Values) : GoString :=
  (lit "&").intercalate
    ((sortByKey v).flatMap (fun p =>
      p.2.map (fun value => QueryEscape p.1 ++ lit "=" ++ QueryEscape value)))

end url

/-! ## util.go -/

/-- Embedding of `appendStr`: the concatenation of its arguments. -/
def appendStr (str : List GoString) : GoString :=
  str.foldl (fun buf v => buf ++ v) []

/-! ## netfunnel.go: the response decoder -/

/-- The netfunnel ticket struct. -/
structure Ticket where
  Id : GoString
  Ip : GoString
  Key : GoString
  Nnext : Int
  Nwait : Int
  Port : Int
  Tps : Int
  Ttl : Int
  deriving DecidableEq, Repr

/-- The zero value `Ticket{}`. -/
def Ticket.zero : Ticket := ⟨[], [], [], 0, 0, 0, 0, 0⟩

/-- Model of `map[string]string`. -/
abbrev ScriptVars := List (GoString × GoString)

/-- Assignment `m[k] = v`. -/
def ScriptVars.set (m : ScriptVars) (k v : GoString) : ScriptVars :=
  (k, v) :: m.filter (fun p => decide (p.1 ≠ k))

/-- Lookup `m[k]`: the empty string when `k` is absent. -/
def ScriptVars.get (m : ScriptVars) (k : GoString) : GoString :=
  match m.find? (fun p => decide (p.1 = k)) with
  | some p => p.2
  | none => []

/-- The loop over the segments of the body (lines 140-143). -/
def scanSegments : List GoString → ScriptVars → Exec ScriptVars
  | [], scriptVars => .ret scriptVars
  | v :: rest, scriptVars =>
    let kvArray := strings.SplitN v 61 2
    index kvArray 0 fun k =>
    index kvArray 1 fun x =>
    scanSegments rest (scriptVars.set (strings.Trim k (lit " ")) (strings.Trim x (lit " ")))

def errMissingResult : GoError :=
  .new (lit "failed to parse response body: Cannot find 'NetFunnel.gControl.result' key")

/-- Lines 159-193: the five integer fields, then the Ticket. -/
def buildTicket (id : GoString) (val : url.Values) : Ticket × Option GoError :=
  match strconv.Atoi (val.Get (lit "nnext")) with
  | .error err =>
    (Ticket.zero, some (.wrap (lit "failed to parse response body (Atoi Failed, in nnext): ") err))
  | .ok val_nnext =>
  match strconv.Atoi (val.Get (lit "nwait")) with
  | .error err =>
    (Ticket.zero, some (.wrap (lit "failed to parse response body (Atoi Failed, in nwait): ") err))
  | .ok val_nwait =>
  match strconv.Atoi (val.Get (lit "port")) with
  | .error err =>
    (Ticket.zero, some (.wrap (lit "failed to parse response body (Atoi Failed, in port): ") err))
  | .ok val_port =>
  match strconv.Atoi (val.Get (lit "tps")) with
  | .error err =>
    (Ticket.zero, some (.wrap (lit "failed to parse response body (Atoi Failed, in tps): ") err))
  | .ok val_tps =>
  match strconv.Atoi (val.Get (lit "ttl")) with
  | .error err =>
    (Ticket.zero, some (.wrap (lit "failed to parse response body (Atoi Failed, in ttl): ") err))
  | .ok val_ttl =>
    ({ Id := id, Ip := val.Get (lit "ip"), Key := val.Get (lit "key"),
       Nnext := val_nnext, Nwait := val_nwait, Port := val_port,
       Tps := val_tps, Ttl := val_ttl }, none)

/-- Embedding of `parseTicketStr`. -/
def parseTicketStr (body : GoString) : Exec (Ticket × Option GoError) :=
  match scanSegments (strings.Split body 59) [] with
  | .panic i n => .panic i n
  | .ret scriptVars =>
    if scriptVars.get (lit "NetFunnel.gControl.result") = [] then
      .ret (Ticket.zero, some errMissingResult)
    else
      let id := strings.Trim (scriptVars.get (lit "NetFunnel.gControl.result")) (lit "'")
      index (strings.SplitN id 58 2) 2 fun q =>
      match url.ParseQuery q with
      | (_, some err) =>
        .ret (Ticket.zero,
          some (.wrap (lit "failed to parse response body (url.ParseQuery failed): ") err))
      | (val, none) => .ret (buildTicket id val)

/-! ## netfunnel.go: the client -/

/-- What `http.Get` hands back when the request completes. -/
structure Response where
  StatusCode : Int
  /-- the bytes `io.ReadAll(resp.Body)` yields, `none` when reading fails -/
  Body : Option GoString
  deriving DecidableEq, Repr

/-- The collaborators of the client: the HTTP requester (a stub) and the clock. -/
structure Env where
  /-- the outcome of the `n`-th outbound request (counted from 0) for a URL;
  `none` is a transport failure -/
  httpGet : Nat → GoString → Option Response
  /-- the value `time.Now().UnixMilli()` has when the `n`-th request is built -/
  unixMilli : Nat → Int

/-- What the client does to the outside world. -/
inductive Event where
  | request (apiurl : GoString)
  | sleep (d : Int)
  deriving DecidableEq, Repr

/-- The outside world as far as the client changes it. -/
structure World where
  /-- number of outbound requests issued so far -/
  calls : Nat
  /-- all requests and sleeps so far, oldest first -/
  log : List Event
  deriving DecidableEq, Repr

structure Client where
  ApiEndpoint : GoString
  RetryInterval : Int
  deriving DecidableEq, Repr

/-- The expression `appendStr(t.ApiEndpoint, "?", params.Encode(), "&",
fmt.Sprint(time.Now().UnixMilli()))` shared by the three operations. -/
def requestURL (endpoint : GoString) (params : url.Values) (now : Int) : GoString :=
  appendStr [endpoint, lit "?", url.Values.Encode params, lit "&", strconv.FormatInt now]

/-- Embedding of `http.Get(apiurl)` against the stub: the request is logged and counted. -/
def httpGet (env : Env) (w : World) (apiurl : GoString) : World × Option Response :=
  ({ calls := w.calls + 1, log := w.log ++ [Event.request apiurl] }, env.httpGet w.calls apiurl)

/-- Embedding of `time.Sleep(d)`: the sleep is logged. -/
def sleep (w : World) (d : Int) : World :=
  { calls := w.calls, log := w.log ++ [Event.sleep d] }

/-- Parameters of the status-check operation (lines 24-30). -/
def checkParams (key : GoString) : url.Values :=
  let params : url.Values := []
  let params := url.Values.Add params (lit "opcode") (lit "5002")
  let params := url.Values.Add params (lit "key") key
  let params := url.Values.Add params (lit "nfid") (lit "0")
  let params := url.Values.Add params (lit "prefix") (lit "NetFunnel.gRtype=5002;")
  let params := url.Values.Add params (lit "ttl") (lit "0")
  let params := url.Values.Add params (lit "js") (lit "yes")
  params

/-- Parameters of the ticket-request operation (lines 58-64). -/
def ticketParams : url.Values :=
  let params : url.Values := []
  let params := url.Values.Add params (lit "opcode") (lit "5101")
  let params := url.Values.Add params (lit "nfid") (lit "0")
  let params := url.Values.Add params (lit "prefix") (lit "NetFunnel.gRtype=5101;")
  let params := url.Values.Add params (lit "sid") (lit "service_1")
  let params := url.Values.Add params (lit "aid") (lit "act_1")
  let params := url.Values.Add params (lit "js") (lit "yes")
  params

/-- Parameters of the ticket-dispatch operation (lines 111-118). -/
def dispatchParams (key : GoString) : url.Values :=
  let params : url.Values := []
  let params := url.Values.Add params (lit "opcode") (lit "5004")
  let params := url.Values.Add params (lit "key") key
  let params := url.Values.Add params (lit "nfid") (lit "0")
  let params := url.Values.Add params (lit "prefix") (lit "NetFunnel.gRtype=5004;")
  let params := url.Values.Add params (lit "sid") (lit "service_1")
  let params := url.Values.Add params (lit "aid") (lit "act_1")
  let params := url.Values.Add params (lit "js") (lit "yes")
  params

def errConnectCheck : GoError :=
  .new (lit "failed to connect to the netfunnel server. (in CheckWaitlist)")

def errConnect : GoError :=
  .new (lit "failed to connect to the netfunnel server")

def errReadBody : GoError :=
  .new (lit "failed to read response body")

/-- The error `fmt.Errorf("unexpected HTTP Status Code. (HTTP %d)", code)`. -/
def errUnexpectedStatus (code : Int) : GoError :=
  .new (lit "unexpected HTTP Status Code. (HTTP " ++ strconv.FormatInt code ++ lit ")")

/-- Embedding of `Client.CheckWaitlist`. -/
def CheckWaitlist (env : Env) (t : Client) (w : World) (key : GoString) :
    World × (Int × Option GoError) :=
  let apiurl := requestURL t.ApiEndpoint (checkParams key) (env.unixMilli w.calls)
  match httpGet env w apiurl with
  | (w1, none) => (w1, (-1, some errConnectCheck))
  | (w1, some resp) => (w1, (resp.StatusCode, none))

/-- The `for` loop of `GetTicket` (lines 91-101); `none` when the fuel runs out. -/
def pollLoop (env : Env) (t : Client) (ticket : Ticket) :
    Nat → World → World × Option (Ticket × Option GoError)
  | 0, w => (w, none)
  | fuel + 1, w =>
    match CheckWaitlist env t w ticket.Key with
    | (w1, (_, some err)) => (w1, some (Ticket.zero, some err))
    | (w1, (resHttpCode, none)) =>
      if resHttpCode = 200 then (w1, some (ticket, none))
      else pollLoop env t ticket fuel (sleep w1 t.RetryInterval)

/-- Embedding of `Client.GetTicket`; `fuel` bounds the iterations of the polling loop,
and the result is `none` when it runs out. -/
def GetTicket (env : Env) (t : Client) (fuel : Nat) (w : World) :
    World × Option (Exec (Ticket × Option GoError)) :=
  let apiurl := requestURL t.ApiEndpoint ticketParams (env.unixMilli w.calls)
  match httpGet env w apiurl with
  | (w1, none) => (w1, some (.ret (Ticket.zero, some errConnect)))
  | (w1, some resp) =>
    match resp.Body with
    | none => (w1, some (.ret (Ticket.zero, some errReadBody)))
    | some respBytes =>
      match parseTicketStr respBytes with
      | .panic i n => (w1, some (.panic i n))
      | .ret (_, some err) => (w1, some (.ret (Ticket.zero, some err)))
      | .ret (ticket, none) =>
        if resp.StatusCode = 200 then (w1, some (.ret (ticket, none)))
        else if resp.StatusCode = 201 then
          match pollLoop env t ticket fuel w1 with
          | (w2, none) => (w2, none)
          | (w2, some r) => (w2, some (.ret r))
        else (w1, some (.ret (Ticket.zero, some (errUnexpectedStatus resp.StatusCode))))

/-- Embedding of `Client.DispatchTicket`. -/
def DispatchTicket (env : Env) (t : Client) (w : World) (ticket : Ticket) :
    World × Option GoError :=
  let apiurl := requestURL t.ApiEndpoint (dispatchParams ticket.Key) (env.unixMilli w.calls)
  match httpGet env w apiurl with
  | (w1, none) => (w1, some errConnect)
  | (w1, some resp) =>
    if resp.StatusCode = 200 then (w1, none)
    else (w1, some (errUnexpectedStatus resp.StatusCode))

/-! ## Stubs and sample inputs -/

/-- The sample response body: a quoted result token with all seven fields. -/
def sampleBody : GoString :=
  lit "NetFunnel.gControl.result='5002:200:ip=nf.example.com&key=ABC&nnext=1&nwait=0&port=443&tps=10&ttl=5'"

/-- A stub whose every request completes with the same status and body, at clock 0. -/
def constEnv (status : Int) (body : GoString) : Env :=
  { httpGet := fun _ _ => some { StatusCode := status, Body := some body },
    unixMilli := fun _ => 0 }

/-- A stub whose every request fails at the transport level. -/
def downEnv : Env :=
  { httpGet := fun _ _ => none, unixMilli := fun _ => 0 }

def sampleClient : Client :=
  { ApiEndpoint := lit "http://nf.example.com/ts.wseq", RetryInterval := 1000000000 }

def World.init : World := { calls := 0, log := [] }

/-- A stub that answers the `n`-th request with the `n`-th entry of a script
(transport failure once the script is used up), at clock 0. -/
def scriptEnv (script : List (Option Response)) : Env :=
  { httpGet := fun n _ => (script.get? n).join, unixMilli := fun _ => 0 }

/-- The sample body without the enclosing quotes. -/
def sampleBodyBare : GoString :=
  lit "NetFunnel.gControl.result=5002:200:ip=nf.example.com&key=ABC&nnext=1&nwait=0&port=443&tps=10&ttl=5"

/-- A body whose result token is well formed except that `nnext` is not an integer. -/
def badNnextBody : GoString :=
  lit "NetFunnel.gControl.result='5002:200:ip=nf.example.com&key=ABC&nnext=x&nwait=0&port=443&tps=10&ttl=5'"

/-- A body without the result key, every segment of which is an assignment. -/
def noResultBody : GoString :=
  lit "NetFunnel.gRtype=5101"

/-! ## Reading a URL back -/

/-- The text after the last occurrence of `sep` in `s` (all of `s` when there is none). -/
def afterLast (s : GoString) (sep : Byte) : GoString :=
  (s.reverse.takeWhile (fun c => decide (c ≠ sep))).reverse

/-- The integer a decimal numeral denotes: an optional minus sign, then one or more
decimal digits; `none` for any other text. -/
def numeralValue (s : GoString) : Option Int :=
  if s.head? = some 45 then
    if s.tail = [] then none
    else Option.map (fun (n : Nat) => - (n : Int)) (strconv.fastLoop s.tail 0)
  else if s = [] then none
  else Option.map (fun (n : Nat) => (n : Int)) (strconv.fastLoop s 0)

/-! ## The assignments of a body -/

/-- The key a segment assigns: the text before its first equals sign, spaces trimmed. -/
def segKey (v : GoString) : GoString :=
  strings.Trim (strings.Cut v 61).1 (lit " ")

/-- The value a segment assigns: the text after its first equals sign, spaces trimmed. -/
def segVal (v : GoString) : GoString :=
  strings.Trim ((strings.Cut v 61).2.getD []) (lit " ")

/-- The value of the last segment that assigns `k`, the empty string when none does. -/
def lastAssigned (segs : List GoString) (k : GoString) : GoString :=
  match segs.reverse.find? (fun v => decide (segKey v = k)) with
  | some v => segVal v
  | none => []

/-- A query string whose `nnext` is an integer and whose `nwait` is not. -/
def badNwaitQuery : GoString :=
  lit "ip=nf.example.com&key=ABC&nnext=1&nwait=x&port=443&tps=10&ttl=5"

/-- A body that assigns the result key twice, the second time with an empty value. -/
def reassignedBody : GoString :=
  lit "NetFunnel.gControl.result='5002:200:key=ABC';NetFunnel.gControl.result="

/-- A body whose result assignment follows a line feed after the previous semicolon. -/
def lineBreakBody : GoString :=
  lit "NetFunnel.gRtype=5101;" ++ 10 :: lit "NetFunnel.gControl.result=x"

/-- A body whose result assignment is surrounded by spaces. -/
def spacedBody : GoString :=
  lit "NetFunnel.gRtype=5101;  NetFunnel.gControl.result  =  x  "

/-- A stub script: status 201 with the sample body, one status check answering 202,
then a transport failure. -/
def failingPollScript : List (Option Response) :=
  [some ⟨201, some sampleBody⟩, some ⟨202, some []⟩, none]

/-- A Ticket as the sample body describes it. -/
def sampleTicket : Ticket :=
  { Id := lit "5002:200:ip=nf.example.com&key=ABC&nnext=1&nwait=0&port=443&tps=10&ttl=5",
    Ip := lit "nf.example.com", Key := lit "ABC",
    Nnext := 1, Nwait := 0, Port := 443, Tps := 10, Ttl := 5 }

/-! ## Parameter sets as text -/

/-- The parameters of a set as key-value pairs, in the order `Values.Encode` writes
them: ascending keys, the values of a key in the order they were added. -/
def kvPairs (v : url.Values) : List (GoString × GoString) :=
  (url.sortByKey v).flatMap (fun p => p.2.map (fun value => (p.1, value)))

/-- The text `Values.Encode` writes for one pair. -/
def encodePair (p : GoString × GoString) : GoString :=
  url.QueryEscape p.1 ++ lit "=" ++ url.QueryEscape p.2

/-- A key with reserved characters, a space and a non-ASCII byte. -/
def awkwardKey : GoString :=
  lit "a&b=c;d?e#f%g+h i" ++ [233]

/-! ## The local `id` of the decoder -/

/-- C1: on the sample body of the specification (a quoted result token with all seven
fields, and the same token unquoted) `parseTicketStr` does not return a Ticket: it
panics with "index out of range [2] with length 2", because
`strings.SplitN(id, ":", 2)` has only two elements. -/
theorem C1_sample_body_panics :
    parseTicketStr sampleBody = Exec.panic 2 2 ∧
    parseTicketStr sampleBodyBare = Exec.panic 2 2 := by
  constructor <;> decide

/-- C2: on the empty body, and on a body ending in a semicolon, `parseTicketStr` does
not return the missing-key error: it panics with "index out of range [1] with
length 1" on the segment that has no equals sign. -/
theorem C2_empty_body_panics :
    parseTicketStr [] = Exec.panic 1 1 ∧
    parseTicketStr (lit "NetFunnel.gRtype=5101;") = Exec.panic 1 1 := by
  constructor <;> decide

/-- C3: on a body whose result token is well formed except for a non-integer `nnext`,
`parseTicketStr` returns no error naming the field: it panics at index 2 of the
two-element split before any field is read. -/
theorem C3_bad_nnext_panics :
    parseTicketStr badNnextBody = Exec.panic 2 2 := by
  decide

/-- C4: on result values with no colon, with one colon, and with an unparseable query
string after the second colon, `parseTicketStr` returns no decode error: it panics at
index 2 of the split (of length 1, 2 and 2). -/
theorem C4_short_token_panics :
    parseTicketStr (lit "NetFunnel.gControl.result=abc") = Exec.panic 2 1 ∧
    parseTicketStr (lit "NetFunnel.gControl.result=5002:200") = Exec.panic 2 2 ∧
    parseTicketStr (lit "NetFunnel.gControl.result=5002:200:ip=%zz") = Exec.panic 2 2 := by
  refine ⟨?_, ?_, ?_⟩ <;> decide

/-! ## The client on concrete stubs -/

/-- C5: against a stub answering status 200 with the sample body, `GetTicket` issues
one request and then panics in the decoder instead of returning the Ticket. -/
theorem C5_GetTicket_200_panics (fuel : Nat) :
    (GetTicket (constEnv 200 sampleBody) sampleClient fuel World.init).2
      = some (Exec.panic 2 2) ∧
    (GetTicket (constEnv 200 sampleBody) sampleClient fuel World.init).1.log
      = [Event.request (requestURL sampleClient.ApiEndpoint ticketParams 0)] := by
  have h : parseTicketStr sampleBody = Exec.panic 2 2 := by decide
  simp [GetTicket, httpGet, constEnv, h, World.init]

/-- C6: against a stub answering status 201 with the sample body and then the
status-check results 202, 202, 200, `GetTicket` makes no status check at all: it
panics in the decoder right after the initial request. -/
theorem C6_GetTicket_201_panics (fuel : Nat) :
    (GetTicket (scriptEnv [some ⟨201, some sampleBody⟩, some ⟨202, some []⟩,
        some ⟨202, some []⟩, some ⟨200, some []⟩]) sampleClient fuel World.init).2
      = some (Exec.panic 2 2) ∧
    (GetTicket (scriptEnv [some ⟨201, some sampleBody⟩, some ⟨202, some []⟩,
        some ⟨202, some []⟩, some ⟨200, some []⟩]) sampleClient fuel World.init).1.calls
      = 1 := by
  have h : parseTicketStr sampleBody = Exec.panic 2 2 := by decide
  simp [GetTicket, httpGet, scriptEnv, h, World.init]

/-! ## The client against an arbitrary stub -/

/-- The connectivity errors begin with "failed", the unexpected-status errors with
"unexpected": no connectivity error equals an unexpected-status error. -/
theorem errConnect_text_ne (s : Int) :
    errConnect.text ≠ (errUnexpectedStatus s).text ∧
    errConnectCheck.text ≠ (errUnexpectedStatus s).text := by
  have hu : lit "unexpected HTTP Status Code. (HTTP "
      = 117 :: lit "nexpected HTTP Status Code. (HTTP " := by decide
  have hc : errConnect.text = 102 :: lit "ailed to connect to the netfunnel server" := by
    decide
  have hk : errConnectCheck.text
      = 102 :: lit "ailed to connect to the netfunnel server. (in CheckWaitlist)" := by
    decide
  constructor
  · rw [hc]
    simp only [errUnexpectedStatus, GoError.text, hu, List.cons_append]
    intro h
    have h1 := (List.cons.inj h).1
    exact absurd h1 (by decide)
  · rw [hk]
    simp only [errUnexpectedStatus, GoError.text, hu, List.cons_append]
    intro h
    have h1 := (List.cons.inj h).1
    exact absurd h1 (by decide)

/-- C8: `DispatchTicket` issues one request built from the Ticket's Key and returns nil
exactly when that request completes with status 200; for any other status it returns
the unexpected-status error, whose message carries the decimal status; when the
requester fails it returns the connectivity error, whose message differs from that of
every unexpected-status error. -/
theorem C8_DispatchTicket_result (env : Env) (t : Client) (w : World) (ticket : Ticket) :
    ((DispatchTicket env t w ticket).2 = none ↔
      ∃ resp, env.httpGet w.calls (requestURL t.ApiEndpoint (dispatchParams ticket.Key)
        (env.unixMilli w.calls)) = some resp ∧ resp.StatusCode = 200) ∧
    (∀ resp, env.httpGet w.calls (requestURL t.ApiEndpoint (dispatchParams ticket.Key)
        (env.unixMilli w.calls)) = some resp → resp.StatusCode ≠ 200 →
      (DispatchTicket env t w ticket).2 = some (GoError.new
        (lit "unexpected HTTP Status Code. (HTTP " ++ strconv.FormatInt resp.StatusCode
          ++ lit ")"))) ∧
    (env.httpGet w.calls (requestURL t.ApiEndpoint (dispatchParams ticket.Key)
        (env.unixMilli w.calls)) = none →
      (DispatchTicket env t w ticket).2 = some errConnect ∧
      ∀ s : Int, errConnect.text ≠ (errUnexpectedStatus s).text) ∧
    (DispatchTicket env t w ticket).1 =
      { calls := w.calls + 1,
        log := w.log ++ [Event.request (requestURL t.ApiEndpoint (dispatchParams ticket.Key)
          (env.unixMilli w.calls))] } := by
  simp only [DispatchTicket, httpGet]
  cases h : env.httpGet w.calls (requestURL t.ApiEndpoint (dispatchParams ticket.Key)
      (env.unixMilli w.calls)) with
  | none =>
    refine ⟨by simp, by simp, fun _ => ⟨rfl, fun s => (errConnect_text_ne s).1⟩, rfl⟩
  | some resp =>
    by_cases h2 : resp.StatusCode = 200
    · simp [h2]
    · simp [h2, errUnexpectedStatus]

/-- C8, at stubs answering 200, answering 500, and failing. -/
theorem C8_DispatchTicket_result_witness :
    (DispatchTicket (constEnv 200 []) sampleClient World.init Ticket.zero).2 = none ∧
    (DispatchTicket (constEnv 500 []) sampleClient World.init Ticket.zero).2
      = some (GoError.new (lit "unexpected HTTP Status Code. (HTTP 500)")) ∧
    (DispatchTicket downEnv sampleClient World.init Ticket.zero).2 = some errConnect := by
  refine ⟨?_, ?_, ?_⟩
  · exact (C8_DispatchTicket_result (constEnv 200 []) sampleClient World.init Ticket.zero).1.2
      ⟨⟨200, some []⟩, rfl, rfl⟩
  · exact (C8_DispatchTicket_result (constEnv 500 []) sampleClient World.init
      Ticket.zero).2.1 ⟨500, some []⟩ rfl (by decide)
  · exact ((C8_DispatchTicket_result downEnv sampleClient World.init Ticket.zero).2.2.1
      rfl).1

/-- C9: `CheckWaitlist` issues one request built from the key; when it completes, the
result is the response's status with a nil error, whatever the body is; when the
requester fails, the result is -1 with the connectivity error. Completed responses
having a non-negative status, the code -1 comes with a non-nil error only. -/
theorem C9_CheckWaitlist_result (env : Env) (t : Client) (w : World) (key : GoString) :
    (∀ (s : Int) (body : Option GoString),
      env.httpGet w.calls (requestURL t.ApiEndpoint (checkParams key)
        (env.unixMilli w.calls)) = some ⟨s, body⟩ →
      (CheckWaitlist env t w key).2 = (s, none)) ∧
    (env.httpGet w.calls (requestURL t.ApiEndpoint (checkParams key)
        (env.unixMilli w.calls)) = none →
      (CheckWaitlist env t w key).2 = (-1, some errConnectCheck)) ∧
    ((∀ resp, env.httpGet w.calls (requestURL t.ApiEndpoint (checkParams key)
        (env.unixMilli w.calls)) = some resp → 0 ≤ resp.StatusCode) →
      ((CheckWaitlist env t w key).2.1 = -1 ↔ (CheckWaitlist env t w key).2.2 ≠ none)) ∧
    (CheckWaitlist env t w key).1 =
      { calls := w.calls + 1,
        log := w.log ++ [Event.request (requestURL t.ApiEndpoint (checkParams key)
          (env.unixMilli w.calls))] } := by
  simp only [CheckWaitlist, httpGet]
  cases h : env.httpGet w.calls (requestURL t.ApiEndpoint (checkParams key)
      (env.unixMilli w.calls)) with
  | none => simp
  | some resp =>
    refine ⟨?_, by simp, ?_, rfl⟩
    · intro s body hs
      cases hs
      rfl
    · intro hnn
      have h0 := hnn resp rfl
      simp only [ne_eq, not_true_eq_false, iff_false]
      omega

/-- C9, at stubs answering 200 and 201 with different bodies, and failing. -/
theorem C9_CheckWaitlist_result_witness :
    (CheckWaitlist (constEnv 200 sampleBody) sampleClient World.init (lit "ABC")).2
      = (200, none) ∧
    (CheckWaitlist (constEnv 201 []) sampleClient World.init (lit "ABC")).2 = (201, none) ∧
    (CheckWaitlist downEnv sampleClient World.init (lit "ABC")).2
      = (-1, some errConnectCheck) := by
  refine ⟨?_, ?_, ?_⟩
  · exact (C9_CheckWaitlist_result (constEnv 200 sampleBody) sampleClient World.init
      (lit "ABC")).1 200 (some sampleBody) rfl
  · exact (C9_CheckWaitlist_result (constEnv 201 []) sampleClient World.init
      (lit "ABC")).1 201 (some []) rfl
  · exact (C9_CheckWaitlist_result downEnv sampleClient World.init (lit "ABC")).2.1 rfl

/-! ## The request URL -/

theorem digitVal_ofNat (d : Nat) (h : d < 10) :
    strconv.digitVal (Fin.ofNat (48 + d)) = some d := by
  interval_cases d <;> rfl

theorem ofNat_digit_val (d : Nat) (h : d < 10) :
    48 ≤ (Fin.ofNat (48 + d) : Byte).val ∧ (Fin.ofNat (48 + d) : Byte).val ≤ 57 := by
  interval_cases d <;> decide

/-- Reading back the digits written by `strconv.digits` gives the number written. -/
theorem fastLoop_digits : ∀ (fuel n : Nat) (acc : GoString), n < fuel →
    strconv.fastLoop (strconv.digits fuel n acc) 0 = strconv.fastLoop acc n := by
  intro fuel
  induction fuel with
  | zero => intro n acc h; omega
  | succ f ih =>
    intro n acc h
    unfold strconv.digits
    by_cases h10 : n < 10
    · simp [h10, strconv.fastLoop, digitVal_ofNat n h10]
    · have hmod : n % 10 < 10 := Nat.mod_lt _ (by decide)
      have hdiv : n / 10 < f := by omega
      rw [if_neg h10, ih (n / 10) _ hdiv]
      simp only [strconv.fastLoop, digitVal_ofNat _ hmod]
      congr 1
      omega

/-- The bytes written by `strconv.digits` are decimal digits. -/
theorem digits_bytes : ∀ (fuel n : Nat) (acc : GoString) (b : Byte),
    b ∈ strconv.digits fuel n acc → (48 ≤ b.val ∧ b.val ≤ 57) ∨ b ∈ acc := by
  intro fuel
  induction fuel with
  | zero => intro n acc b h; exact Or.inr h
  | succ f ih =>
    intro n acc b h
    unfold strconv.digits at h
    by_cases h10 : n < 10
    · rw [if_pos h10] at h
      rcases List.mem_cons.mp h with h1 | h1
      · exact Or.inl (h1 ▸ ofNat_digit_val n h10)
      · exact Or.inr h1
    · rw [if_neg h10] at h
      rcases ih _ _ b h with h1 | h1
      · exact Or.inl h1
      · rcases List.mem_cons.mp h1 with h2 | h2
        · exact Or.inl (h2 ▸ ofNat_digit_val _ (Nat.mod_lt _ (by decide)))
        · exact Or.inr h2

theorem digits_ne_nil (fuel n : Nat) (acc : GoString) :
    strconv.digits (fuel + 1) n acc ≠ [] := by
  induction fuel generalizing n acc with
  | zero =>
    unfold strconv.digits
    by_cases h10 : n < 10
    · simp [h10]
    · simp [h10, strconv.digits]
  | succ f ih =>
    unfold strconv.digits
    by_cases h10 : n < 10
    · simp [h10]
    · rw [if_neg h10]
      exact ih _ _

/-- Every byte of a rendered integer is a decimal digit or the minus sign. -/
theorem FormatInt_bytes (i : Int) (b : Byte) (h : b ∈ strconv.FormatInt i) :
    (48 ≤ b.val ∧ b.val ≤ 57) ∨ b = 45 := by
  unfold strconv.FormatInt at h
  by_cases hneg : i < 0
  · rw [if_pos hneg] at h
    rcases List.mem_cons.mp h with h1 | h1
    · exact Or.inr h1
    · rcases digits_bytes _ _ _ b h1 with h2 | h2
      · exact Or.inl h2
      · simp at h2
  · rw [if_neg hneg] at h
    rcases digits_bytes _ _ _ b h with h2 | h2
    · exact Or.inl h2
    · simp at h2

/-- A rendered integer denotes the integer rendered. -/
theorem numeralValue_FormatInt (i : Int) : numeralValue (strconv.FormatInt i) = some i := by
  unfold strconv.FormatInt
  by_cases hneg : i < 0
  · rw [if_pos hneg]
    have hne := digits_ne_nil i.natAbs i.natAbs []
    simp only [numeralValue, List.head?_cons, List.tail_cons, if_true, if_neg hne]
    rw [fastLoop_digits _ _ _ (Nat.lt_succ_self _)]
    have habs : -(i.natAbs : Int) = i := by omega
    simp only [strconv.fastLoop, Option.map_some', habs]
  · rw [if_neg hneg]
    have hne := digits_ne_nil i.natAbs i.natAbs []
    have hhead : (strconv.digits (i.natAbs + 1) i.natAbs []).head? ≠ some 45 := by
      intro hh
      have hmem : (45 : Byte) ∈ strconv.digits (i.natAbs + 1) i.natAbs [] :=
        List.mem_of_mem_head? hh
      rcases digits_bytes _ _ _ _ hmem with h2 | h2
      · exact absurd h2.1 (by decide)
      · simp at h2
    simp only [numeralValue, if_neg hhead, if_neg hne]
    rw [fastLoop_digits _ _ _ (Nat.lt_succ_self _)]
    have habs : (i.natAbs : Int) = i := by omega
    simp only [strconv.fastLoop, Option.map_some', habs]

theorem afterLast_append (a b : GoString) (sep : Byte) (h : sep ∉ b) :
    afterLast (a ++ sep :: b) sep = b := by
  unfold afterLast
  have hb : ∀ c ∈ b.reverse, decide (c ≠ sep) = true := by
    intro c hc
    have hc1 : c ∈ b := List.mem_reverse.mp hc
    simp only [ne_eq, decide_not, Bool.not_eq_true', decide_eq_false_iff_not]
    intro hcs
    exact h (hcs ▸ hc1)
  rw [List.reverse_append, List.reverse_cons, List.append_assoc,
    List.takeWhile_append_of_pos hb]
  simp

theorem appendStr_five (a b c d e : GoString) :
    appendStr [a, b, c, d, e] = a ++ b ++ c ++ d ++ e := by
  simp [appendStr]

/-- The log of the polling loop extends the log it starts from. -/
theorem pollLoop_log (env : Env) (t : Client) (ticket : Ticket) :
    ∀ (fuel : Nat) (w : World),
      ∃ rest, (pollLoop env t ticket fuel w).1.log = w.log ++ rest := by
  intro fuel
  induction fuel with
  | zero => intro w; exact ⟨[], by simp [pollLoop]⟩
  | succ f ih =>
    intro w
    unfold pollLoop
    simp only [CheckWaitlist, httpGet]
    cases h : env.httpGet w.calls (requestURL t.ApiEndpoint (checkParams ticket.Key)
        (env.unixMilli w.calls)) with
    | none => exact ⟨_, rfl⟩
    | some resp =>
      by_cases h2 : resp.StatusCode = 200
      · simp only [h2, if_true]
        exact ⟨_, rfl⟩
      · simp only [h2, if_false]
        obtain ⟨rest, hr⟩ := ih (sleep { calls := w.calls + 1, log := w.log ++
          [Event.request (requestURL t.ApiEndpoint (checkParams ticket.Key)
            (env.unixMilli w.calls))] } t.RetryInterval)
        refine ⟨[Event.request (requestURL t.ApiEndpoint (checkParams ticket.Key)
          (env.unixMilli w.calls)), Event.sleep t.RetryInterval] ++ rest, ?_⟩
        rw [hr]
        simp [sleep]

theorem FormatInt_nonneg_bytes (i : Int) (h : 0 ≤ i) (b : Byte)
    (hb : b ∈ strconv.FormatInt i) : 48 ≤ b.val ∧ b.val ≤ 57 := by
  unfold strconv.FormatInt at hb
  rw [if_neg (not_lt.mpr h)] at hb
  rcases digits_bytes _ _ _ b hb with h2 | h2
  · exact h2
  · simp at h2

theorem requestURL_eq (e : GoString) (params : url.Values) (now : Int) :
    requestURL e params now =
      e ++ lit "?" ++ url.Values.Encode params ++ lit "&" ++ strconv.FormatInt now := by
  unfold requestURL
  exact appendStr_five _ _ _ _ _

theorem afterLast_requestURL (e : GoString) (params : url.Values) (now : Int) :
    afterLast (requestURL e params now) 38 = strconv.FormatInt now := by
  have hamp : lit "&" = [38] := by decide
  have hnot : (38 : Byte) ∉ strconv.FormatInt now := by
    intro hmem
    rcases FormatInt_bytes now 38 hmem with h1 | h1
    · exact absurd h1.1 (by decide)
    · exact absurd h1 (by decide)
  rw [requestURL_eq, hamp, List.append_assoc, List.singleton_append]
  exact afterLast_append _ _ _ hnot

/-- C10: the URL an operation requests is the endpoint, a question mark, the encoded
parameters, an ampersand and the clock reading in decimal. What follows the last
ampersand is that decimal numeral (digits only for a non-negative reading) and denotes
the reading, so readings in non-decreasing order give suffixes in non-decreasing
numeric order. It is the URL of the request `CheckWaitlist` and `DispatchTicket` issue
and of the first request `GetTicket` issues, with the clock read for that request. -/
theorem C10_request_url (env : Env) (t : Client) (w : World) (key : GoString)
    (ticket : Ticket) (fuel : Nat) :
    (∀ (e : GoString) (params : url.Values) (now : Int),
      requestURL e params now =
        e ++ lit "?" ++ url.Values.Encode params ++ lit "&" ++ strconv.FormatInt now ∧
      afterLast (requestURL e params now) 38 = strconv.FormatInt now ∧
      numeralValue (afterLast (requestURL e params now) 38) = some now ∧
      (0 ≤ now → ∀ b ∈ afterLast (requestURL e params now) 38, 48 ≤ b.val ∧ b.val ≤ 57)) ∧
    (∀ (e1 e2 : GoString) (p1 p2 : url.Values) (t1 t2 : Int), t1 ≤ t2 →
      ∃ n1 n2 : Int, numeralValue (afterLast (requestURL e1 p1 t1) 38) = some n1 ∧
        numeralValue (afterLast (requestURL e2 p2 t2) 38) = some n2 ∧ n1 ≤ n2) ∧
    (CheckWaitlist env t w key).1.log = w.log ++
      [Event.request (requestURL t.ApiEndpoint (checkParams key) (env.unixMilli w.calls))] ∧
    (DispatchTicket env t w ticket).1.log = w.log ++
      [Event.request
        (requestURL t.ApiEndpoint (dispatchParams ticket.Key) (env.unixMilli w.calls))] ∧
    (∃ rest, (GetTicket env t fuel w).1.log = w.log ++
      Event.request (requestURL t.ApiEndpoint ticketParams (env.unixMilli w.calls))
        :: rest) := by
  refine ⟨?_, ?_, ?_, ?_, ?_⟩
  · intro e params now
    refine ⟨requestURL_eq e params now, afterLast_requestURL e params now, ?_, ?_⟩
    · rw [afterLast_requestURL]
      exact numeralValue_FormatInt now
    · intro h0 b hb
      rw [afterLast_requestURL] at hb
      exact FormatInt_nonneg_bytes now h0 b hb
  · intro e1 e2 p1 p2 t1 t2 h12
    refine ⟨t1, t2, ?_, ?_, h12⟩
    · rw [afterLast_requestURL]
      exact numeralValue_FormatInt t1
    · rw [afterLast_requestURL]
      exact numeralValue_FormatInt t2
  · simp only [CheckWaitlist, httpGet]
    cases env.httpGet w.calls (requestURL t.ApiEndpoint (checkParams key)
        (env.unixMilli w.calls)) <;> rfl
  · simp only [DispatchTicket, httpGet]
    cases env.httpGet w.calls (requestURL t.ApiEndpoint (dispatchParams ticket.Key)
        (env.unixMilli w.calls)) with
    | none => rfl
    | some resp => by_cases h2 : resp.StatusCode = 200 <;> simp [h2]
  · simp only [GetTicket, httpGet]
    cases env.httpGet w.calls (requestURL t.ApiEndpoint ticketParams
        (env.unixMilli w.calls)) with
    | none => exact ⟨[], by simp⟩
    | some resp =>
      obtain ⟨status, bodyOpt⟩ := resp
      cases bodyOpt with
      | none => exact ⟨[], by simp⟩
      | some respBytes =>
        simp only []
        cases parseTicketStr respBytes with
        | panic i n => exact ⟨[], by simp⟩
        | ret r =>
          obtain ⟨ticket1, err⟩ := r
          cases err with
          | some e => exact ⟨[], by simp⟩
          | none =>
            by_cases h200 : status = 200
            · exact ⟨[], by simp [h200]⟩
            · by_cases h201 : status = 201
              · obtain ⟨rest, hr⟩ := pollLoop_log env t ticket1 fuel
                  { calls := w.calls + 1, log := w.log ++ [Event.request
                    (requestURL t.ApiEndpoint ticketParams (env.unixMilli w.calls))] }
                refine ⟨rest, ?_⟩
                have hlog : ∀ p : World × Option (Ticket × Option GoError),
                    (match p with
                      | (w2, none) => ((w2, none) :
                          World × Option (Exec (Ticket × Option GoError)))
                      | (w2, some r) => (w2, some (Exec.ret r))).1 = p.1 := by
                  intro p
                  obtain ⟨w2, o⟩ := p
                  cases o <;> rfl
                have hne : ¬ ((201 : Int) = 200) := by decide
                simp only [h201, hne, if_false, if_true]
                rw [hlog, hr]
                simp
              · exact ⟨[], by simp [h200, h201]⟩

/-- C10, at the ticket-request URL for the clock reading 1700000000123 and for
successive status checks at the readings 5 and 7. -/
theorem C10_request_url_witness :
    requestURL sampleClient.ApiEndpoint ticketParams 1700000000123 =
      lit "http://nf.example.com/ts.wseq?aid=act_1&js=yes&nfid=0&opcode=5101&prefix=NetFunnel.gRtype%3D5101%3B&sid=service_1&1700000000123" ∧
    (∃ n1 n2 : Int,
      numeralValue (afterLast (requestURL sampleClient.ApiEndpoint (checkParams (lit "ABC")) 5)
        38) = some n1 ∧
      numeralValue (afterLast (requestURL sampleClient.ApiEndpoint (checkParams (lit "ABC")) 7)
        38) = some n2 ∧ n1 ≤ n2) := by
  refine ⟨by decide, ?_⟩
  exact (C10_request_url downEnv sampleClient World.init [] Ticket.zero 0).2.1
    _ _ _ _ 5 7 (by decide)

/-! ## Splitting -/

theorem Cut_of_not_mem (s : GoString) (sep : Byte) (h : sep ∉ s) :
    strings.Cut s sep = (s, none) := by
  induction s with
  | nil => rfl
  | cons c cs ih =>
    have hc : ¬ c = sep := fun e => h (e ▸ List.mem_cons_self _ _)
    have hcs : sep ∉ cs := fun e => h (List.mem_cons_of_mem _ e)
    unfold strings.Cut
    rw [if_neg hc, ih hcs]

theorem Cut_of_mem (s : GoString) (sep : Byte) (h : sep ∈ s) :
    ∃ a b, strings.Cut s sep = (a, some b) ∧ s = a ++ sep :: b ∧ sep ∉ a := by
  induction s with
  | nil => exact absurd h (List.not_mem_nil _)
  | cons c cs ih =>
    unfold strings.Cut
    by_cases hc : c = sep
    · exact ⟨[], cs, by rw [if_pos hc], by rw [hc]; rfl, List.not_mem_nil _⟩
    · have hcs : sep ∈ cs := by
        rcases List.mem_cons.mp h with h1 | h1
        · exact absurd h1.symm hc
        · exact h1
      obtain ⟨a, b, hcut, hs, ha⟩ := ih hcs
      refine ⟨c :: a, b, by rw [if_neg hc, hcut], by rw [hs]; rfl, ?_⟩
      intro hm
      rcases List.mem_cons.mp hm with h1 | h1
      · exact hc h1.symm
      · exact ha h1

/-- The split `strings.SplitN(s, sep, 2)` of a text without the separator is the
one-element slice holding the text. -/
theorem SplitN_two_of_not_mem (s : GoString) (sep : Byte) (h : sep ∉ s) :
    strings.SplitN s sep 2 = [s] := by
  simp [strings.SplitN, strings.genSplit, Cut_of_not_mem s sep h]

/-- The split `strings.SplitN(s, sep, 2)` of a text with the separator is the text
before its first occurrence and the text after it. -/
theorem SplitN_two_of_mem (s : GoString) (sep : Byte) (h : sep ∈ s) :
    strings.SplitN s sep 2 =
      [(strings.Cut s sep).1, (strings.Cut s sep).2.getD []] := by
  obtain ⟨a, b, hcut, _, _⟩ := Cut_of_mem s sep h
  simp [strings.SplitN, strings.genSplit, hcut]

/-- A split into at most `n` pieces has at most `n` elements. -/
theorem genSplit_length_le (sep : Byte) : ∀ (n : Nat) (s : GoString),
    (strings.genSplit s sep n).length ≤ n := by
  intro n
  induction n using Nat.strong_induction_on with
  | _ n ih =>
    intro s
    match n with
    | 0 => simp [strings.genSplit]
    | 1 => simp [strings.genSplit]
    | k + 2 =>
      unfold strings.genSplit
      cases hc : strings.Cut s sep with
      | mk a o =>
        cases o with
        | none => simp
        | some rest =>
          have := ih (k + 1) (by omega) rest
          simp only [List.length_cons]
          omega

/-- Index 2 of `strings.SplitN(id, ":", 2)` is out of range for every `id`. -/
theorem index_SplitN_two {β : Type} (id : GoString) (sep : Byte) (k : GoString → Exec β) :
    index (strings.SplitN id sep 2) 2 k = Exec.panic 2 (strings.SplitN id sep 2).length ∧
    (strings.SplitN id sep 2).length ≤ 2 := by
  have hlen : (strings.SplitN id sep 2).length ≤ 2 := genSplit_length_le sep 2 id
  refine ⟨?_, hlen⟩
  unfold index
  rw [List.get?_eq_none.mpr hlen]

/-! ## The loop over the segments -/

theorem scanSegments_cons_of_not_mem (v : GoString) (rest : List GoString)
    (m : ScriptVars) (h : (61 : Byte) ∉ v) :
    scanSegments (v :: rest) m = Exec.panic 1 1 := by
  unfold scanSegments
  simp [SplitN_two_of_not_mem v 61 h, index]

theorem scanSegments_cons_of_mem (v : GoString) (rest : List GoString)
    (m : ScriptVars) (h : (61 : Byte) ∈ v) :
    scanSegments (v :: rest) m = scanSegments rest (m.set (segKey v) (segVal v)) := by
  conv_lhs => unfold scanSegments
  simp [SplitN_two_of_mem v 61 h, index, segKey, segVal]

/-- The loop panics at index 1 as soon as a segment has no equals sign. -/
theorem scanSegments_panic : ∀ (segs : List GoString) (m : ScriptVars),
    (∃ v ∈ segs, (61 : Byte) ∉ v) → scanSegments segs m = Exec.panic 1 1 := by
  intro segs
  induction segs with
  | nil => intro m h; obtain ⟨v, hv, _⟩ := h; exact absurd hv (List.not_mem_nil _)
  | cons v rest ih =>
    intro m h
    by_cases hv : (61 : Byte) ∈ v
    · rw [scanSegments_cons_of_mem v rest m hv]
      apply ih
      obtain ⟨u, hu, hne⟩ := h
      rcases List.mem_cons.mp hu with h1 | h1
      · exact absurd (h1 ▸ hv) hne
      · exact ⟨u, h1, hne⟩
    · exact scanSegments_cons_of_not_mem v rest m hv

/-- When every segment has an equals sign the loop returns the map obtained by
carrying out the assignments in order. -/
theorem scanSegments_ret : ∀ (segs : List GoString) (m : ScriptVars),
    (∀ v ∈ segs, (61 : Byte) ∈ v) →
    scanSegments segs m =
      Exec.ret (segs.foldl (fun acc v => acc.set (segKey v) (segVal v)) m) := by
  intro segs
  induction segs with
  | nil => intro m _; rfl
  | cons v rest ih =>
    intro m h
    rw [scanSegments_cons_of_mem v rest m (h v (List.mem_cons_self _ _))]
    exact ih _ (fun u hu => h u (List.mem_cons_of_mem _ hu))

/-- What `parseTicketStr` does once the loop has returned the map `m`. -/
theorem parseTicketStr_of_scan (body : GoString) (m : ScriptVars)
    (h : scanSegments (strings.Split body 59) [] = Exec.ret m) :
    parseTicketStr body =
      if m.get (lit "NetFunnel.gControl.result") = [] then
        Exec.ret (Ticket.zero, some errMissingResult)
      else Exec.panic 2 (strings.SplitN
        (strings.Trim (m.get (lit "NetFunnel.gControl.result")) (lit "'")) 58 2).length := by
  unfold parseTicketStr
  rw [h]
  by_cases hm : m.get (lit "NetFunnel.gControl.result") = []
  · simp only [hm, if_true]
  · simp only [hm, if_false]
    exact (index_SplitN_two _ 58 _).1

/-! ## No Ticket without a nil error, no Ticket with an error -/

/-- C20: `parseTicketStr` never returns a Ticket with a nil error. A body with a segment
that has no equals sign panics at index 1 of a one-element split; otherwise the loop
returns the map, and either the result key is missing or empty and the missing-key error
is returned, or the result value is non-empty and index 2 of
`strings.SplitN(id, ":", 2)`, which has at most two elements for every id, panics. -/
theorem C20_parseTicketStr_never_succeeds (body : GoString) :
    ((∃ v ∈ strings.Split body 59, (61 : Byte) ∉ v) →
      parseTicketStr body = Exec.panic 1 1) ∧
    ((∀ v ∈ strings.Split body 59, (61 : Byte) ∈ v) →
      ∃ m, scanSegments (strings.Split body 59) [] = Exec.ret m ∧
        (m.get (lit "NetFunnel.gControl.result") = [] →
          parseTicketStr body = Exec.ret (Ticket.zero, some errMissingResult)) ∧
        (m.get (lit "NetFunnel.gControl.result") ≠ [] →
          ∃ n, n ≤ 2 ∧ parseTicketStr body = Exec.panic 2 n)) ∧
    (∀ id : GoString, (strings.SplitN id 58 2).length ≤ 2 ∧
      (strings.SplitN id 58 2).get? 2 = none) ∧
    (∀ t : Ticket, parseTicketStr body ≠ Exec.ret (t, none)) := by
  have hpanic : (∃ v ∈ strings.Split body 59, (61 : Byte) ∉ v) →
      parseTicketStr body = Exec.panic 1 1 := by
    intro h
    unfold parseTicketStr
    rw [scanSegments_panic _ [] h]
  have hret : (∀ v ∈ strings.Split body 59, (61 : Byte) ∈ v) →
      ∃ m, scanSegments (strings.Split body 59) [] = Exec.ret m ∧
        (m.get (lit "NetFunnel.gControl.result") = [] →
          parseTicketStr body = Exec.ret (Ticket.zero, some errMissingResult)) ∧
        (m.get (lit "NetFunnel.gControl.result") ≠ [] →
          ∃ n, n ≤ 2 ∧ parseTicketStr body = Exec.panic 2 n) := by
    intro h
    refine ⟨_, scanSegments_ret _ [] h, ?_, ?_⟩
    · intro hm
      rw [parseTicketStr_of_scan body _ (scanSegments_ret _ [] h), if_pos hm]
    · intro hm
      rw [parseTicketStr_of_scan body _ (scanSegments_ret _ [] h), if_neg hm]
      exact ⟨_, genSplit_length_le 58 2 _, rfl⟩
  refine ⟨hpanic, hret, ?_, ?_⟩
  · intro id
    have hlen : (strings.SplitN id 58 2).length ≤ 2 := genSplit_length_le 58 2 id
    exact ⟨hlen, List.get?_eq_none.mpr hlen⟩
  · intro t ht
    by_cases hall : ∀ v ∈ strings.Split body 59, (61 : Byte) ∈ v
    · obtain ⟨m, _, h1, h2⟩ := hret hall
      by_cases hm : m.get (lit "NetFunnel.gControl.result") = []
      · rw [h1 hm] at ht
        cases ht
      · obtain ⟨n, _, hn⟩ := h2 hm
        rw [hn] at ht
        cases ht
    · have hex : ∃ v ∈ strings.Split body 59, (61 : Byte) ∉ v := by
        by_contra hno
        exact hall (fun v hv => by_contra (fun hv2 => hno ⟨v, hv, hv2⟩))
      rw [hpanic hex] at ht
      cases ht

/-- C20, at the sample body: every segment has an equals sign, the result value is
non-empty, and the decoder panics at index 2. -/
theorem C20_parseTicketStr_never_succeeds_witness :
    ∃ n, n ≤ 2 ∧ parseTicketStr sampleBody = Exec.panic 2 n := by
  obtain ⟨m, hm, _, h2⟩ := (C20_parseTicketStr_never_succeeds sampleBody).2.1 (by decide)
  apply h2
  have hscan : scanSegments (strings.Split sampleBody 59) [] = Exec.ret
      [(lit "NetFunnel.gControl.result",
        lit "'5002:200:ip=nf.example.com&key=ABC&nnext=1&nwait=0&port=443&tps=10&ttl=5'")] := by
    decide
  rw [hscan] at hm
  cases hm
  decide

/-- C15: `parseTicketStr` is not total as a function returning a Ticket or an error: a
body that is one segment without an equals sign panics at index 1, and result values
with no colon and with one colon panic at index 2. -/
theorem C15_parseTicketStr_panics :
    parseTicketStr (lit "junk") = Exec.panic 1 1 ∧
    parseTicketStr (lit "NetFunnel.gRtype=5101;junk;NetFunnel.gControl.result=x")
      = Exec.panic 1 1 ∧
    parseTicketStr (lit "NetFunnel.gControl.result='x'") = Exec.panic 2 1 ∧
    parseTicketStr (lit "NetFunnel.gControl.result='1:2'") = Exec.panic 2 2 := by
  refine ⟨?_, ?_, ?_, ?_⟩ <;> decide

theorem buildTicket_zero (id : GoString) (val : url.Values) (t : Ticket) (e : GoError)
    (h : buildTicket id val = (t, some e)) : t = Ticket.zero := by
  unfold buildTicket at h
  split at h
  · exact (Prod.mk.inj h).1.symm
  · split at h
    · exact (Prod.mk.inj h).1.symm
    · split at h
      · exact (Prod.mk.inj h).1.symm
      · split at h
        · exact (Prod.mk.inj h).1.symm
        · split at h
          · exact (Prod.mk.inj h).1.symm
          · exact absurd (Prod.mk.inj h).2 (by simp)

theorem pollLoop_zero (env : Env) (c : Client) (ticket : Ticket) :
    ∀ (fuel : Nat) (w w1 : World) (t : Ticket) (e : GoError),
      pollLoop env c ticket fuel w = (w1, some (t, some e)) → t = Ticket.zero := by
  intro fuel
  induction fuel with
  | zero =>
    intro w w1 t e h
    simp [pollLoop] at h
  | succ f ih =>
    intro w w1 t e h
    unfold pollLoop at h
    simp only [CheckWaitlist, httpGet] at h
    cases hg : env.httpGet w.calls (requestURL c.ApiEndpoint (checkParams ticket.Key)
        (env.unixMilli w.calls)) with
    | none =>
      rw [hg] at h
      simp only [Prod.mk.injEq, Option.some.injEq] at h
      exact h.2.1.symm
    | some resp =>
      rw [hg] at h
      by_cases h2 : resp.StatusCode = 200
      · simp [h2] at h
      · simp only [h2, if_false] at h
        exact ih _ _ _ _ h

/-- C13: no partial Ticket. Whenever `parseTicketStr` returns a non-nil error, the Ticket
returned with it is the zero value; so is the Ticket the integer-field stage (lines
159-193) returns with an error, also when earlier fields had parsed; and so is the
Ticket of every error return of `GetTicket`. -/
theorem C13_error_means_zero_ticket :
    (∀ (body : GoString) (t : Ticket) (e : GoError),
      parseTicketStr body = Exec.ret (t, some e) → t = Ticket.zero) ∧
    (∀ (id : GoString) (val : url.Values) (t : Ticket) (e : GoError),
      buildTicket id val = (t, some e) → t = Ticket.zero) ∧
    (∀ (env : Env) (c : Client) (fuel : Nat) (w w1 : World) (t : Ticket) (e : GoError),
      GetTicket env c fuel w = (w1, some (Exec.ret (t, some e))) → t = Ticket.zero) := by
  have hparse : ∀ (body : GoString) (t : Ticket) (e : GoError),
      parseTicketStr body = Exec.ret (t, some e) → t = Ticket.zero := by
    intro body t e h
    by_cases hall : ∀ v ∈ strings.Split body 59, (61 : Byte) ∈ v
    · rw [parseTicketStr_of_scan body _ (scanSegments_ret _ [] hall)] at h
      split at h
      · cases h
        rfl
      · cases h
    · have hex : ∃ v ∈ strings.Split body 59, (61 : Byte) ∉ v := by
        by_contra hno
        exact hall (fun v hv => by_contra (fun hv2 => hno ⟨v, hv, hv2⟩))
      unfold parseTicketStr at h
      rw [scanSegments_panic _ [] hex] at h
      cases h
  refine ⟨hparse, buildTicket_zero, ?_⟩
  intro env c fuel w w1 t e h
  simp only [GetTicket, httpGet] at h
  cases hg : env.httpGet w.calls (requestURL c.ApiEndpoint ticketParams
      (env.unixMilli w.calls)) with
  | none =>
    rw [hg] at h
    simp only [Prod.mk.injEq, Option.some.injEq, Exec.ret.injEq] at h
    exact h.2.1.symm
  | some resp =>
    rw [hg] at h
    obtain ⟨status, bodyOpt⟩ := resp
    cases bodyOpt with
    | none =>
      simp only [Prod.mk.injEq, Option.some.injEq, Exec.ret.injEq] at h
      exact h.2.1.symm
    | some respBytes =>
      simp only [] at h
      cases hp : parseTicketStr respBytes with
      | panic i n =>
        rw [hp] at h
        simp at h
      | ret r =>
        rw [hp] at h
        obtain ⟨ticket1, err⟩ := r
        cases err with
        | some e1 =>
          simp only [Prod.mk.injEq, Option.some.injEq, Exec.ret.injEq] at h
          exact h.2.1.symm
        | none =>
          simp only [] at h
          by_cases h200 : status = 200
          · simp [h200] at h
          · by_cases h201 : status = 201
            · have hne : ¬ ((201 : Int) = 200) := by decide
              simp only [h201, hne, if_false, if_true] at h
              cases hpl : pollLoop env c ticket1 fuel
                  { calls := w.calls + 1, log := w.log ++ [Event.request
                    (requestURL c.ApiEndpoint ticketParams (env.unixMilli w.calls))] } with
              | mk w2 o =>
                rw [hpl] at h
                cases o with
                | none => simp at h
                | some r =>
                  obtain ⟨t2, e2⟩ := r
                  simp only [Prod.mk.injEq, Option.some.injEq, Exec.ret.injEq] at h
                  obtain ⟨_, rfl, rfl⟩ := h
                  exact pollLoop_zero env c ticket1 fuel _ _ _ _ hpl
            · simp only [h200, h201, if_false, Prod.mk.injEq, Option.some.injEq,
                Exec.ret.injEq] at h
              exact h.2.1.symm

/-- C13, at a body without the result key, at a query string whose `nnext` parses and
whose `nwait` does not, and at a stub that fails at the transport level. -/
theorem C13_error_means_zero_ticket_witness :
    parseTicketStr noResultBody = Exec.ret (Ticket.zero, some errMissingResult) ∧
    buildTicket (lit "1:2:x") (url.ParseQuery badNwaitQuery).1 =
      (Ticket.zero, some (GoError.wrap
        (lit "failed to parse response body (Atoi Failed, in nwait): ")
        (StdError.atoiInvalid (lit "x")))) ∧
    (GetTicket downEnv sampleClient 3 World.init).2
      = some (Exec.ret (Ticket.zero, some errConnect)) := by
  have h1 : parseTicketStr noResultBody = Exec.ret (Ticket.zero, some errMissingResult) := by
    decide
  have h2 : buildTicket (lit "1:2:x") (url.ParseQuery badNwaitQuery).1 =
      (Ticket.zero, some (GoError.wrap
        (lit "failed to parse response body (Atoi Failed, in nwait): ")
        (StdError.atoiInvalid (lit "x")))) := by decide
  have h3 : GetTicket downEnv sampleClient 3 World.init =
      ((GetTicket downEnv sampleClient 3 World.init).1,
        some (Exec.ret (Ticket.zero, some errConnect))) := by
    simp [GetTicket, httpGet, downEnv]
  have z1 := C13_error_means_zero_ticket.1 noResultBody _ _ h1
  have z2 := C13_error_means_zero_ticket.2.1 _ _ _ _ h2
  have z3 := C13_error_means_zero_ticket.2.2 _ _ _ _ _ _ _ h3
  exact ⟨h1, h2, by rw [h3]⟩

/-! ## The assignment map -/

theorem find?_filter_ne (k k1 : GoString) (hk : ¬ k1 = k) : ∀ m : ScriptVars,
    (m.filter (fun p => decide (p.1 ≠ k))).find? (fun p => decide (p.1 = k1)) =
      m.find? (fun p => decide (p.1 = k1)) := by
  intro m
  induction m with
  | nil => rfl
  | cons p rest ih =>
    by_cases hp : p.1 = k
    · have hp1 : ¬ p.1 = k1 := fun e => hk (e ▸ hp)
      rw [List.filter_cons_of_neg (by simp [hp]), List.find?_cons_of_neg _ (by simp [hp1])]
      exact ih
    · rw [List.filter_cons_of_pos (by simp [hp])]
      by_cases hp1 : p.1 = k1
      · rw [List.find?_cons_of_pos _ (by simp [hp1]), List.find?_cons_of_pos _ (by simp [hp1])]
      · rw [List.find?_cons_of_neg _ (by simp [hp1]), List.find?_cons_of_neg _ (by simp [hp1])]
        exact ih

theorem ScriptVars_get_set (m : ScriptVars) (k v k1 : GoString) :
    (m.set k v).get k1 = if k1 = k then v else m.get k1 := by
  unfold ScriptVars.set ScriptVars.get
  by_cases hk : k1 = k
  · simp [hk]
  · have hk' : ¬ k = k1 := fun e => hk e.symm
    rw [List.find?_cons_of_neg _ (by simp [hk']), find?_filter_ne k k1 hk, if_neg hk]

/-- After the assignments of `segs`, a key holds the value of the last segment that
assigns it, and otherwise what it held before. -/
theorem get_foldl_set : ∀ (segs : List GoString) (m : ScriptVars) (k : GoString),
    (segs.foldl (fun acc v => acc.set (segKey v) (segVal v)) m).get k =
      match segs.reverse.find? (fun v => decide (segKey v = k)) with
      | some v => segVal v
      | none => m.get k := by
  intro segs
  induction segs with
  | nil => intro m k; rfl
  | cons v rest ih =>
    intro m k
    rw [List.foldl_cons, ih, List.reverse_cons, List.find?_append]
    cases hf : rest.reverse.find? (fun v => decide (segKey v = k)) with
    | some u => rfl
    | none =>
      simp only [Option.none_or, List.find?_cons, List.find?_nil]
      rw [ScriptVars_get_set]
      by_cases hv : segKey v = k
      · simp [hv]
      · have hv' : ¬ k = segKey v := fun e => hv e.symm
        simp [hv, hv']

theorem Cut_append (k x : GoString) (sep : Byte) (h : sep ∉ k) :
    strings.Cut (k ++ sep :: x) sep = (k, some x) := by
  induction k with
  | nil => simp [strings.Cut]
  | cons c cs ih =>
    have hc : ¬ c = sep := fun e => h (e ▸ List.mem_cons_self _ _)
    have hcs : sep ∉ cs := fun e => h (List.mem_cons_of_mem _ e)
    rw [List.cons_append]
    unfold strings.Cut
    rw [if_neg hc, ih hcs]

/-- C16: when every segment of the body has an equals sign, the loop returns a map in
which every key holds the value of the last segment assigning it, a segment assigning
the text after its first equals sign to the text before it (both trimmed); so the last
assignment of the result key alone decides what `parseTicketStr` does, and an empty
last value gives the missing-key error. -/
theorem C16_last_assignment_wins (body : GoString)
    (hall : ∀ v ∈ strings.Split body 59, (61 : Byte) ∈ v) :
    (∃ m, scanSegments (strings.Split body 59) [] = Exec.ret m ∧
      ∀ k, m.get k = lastAssigned (strings.Split body 59) k) ∧
    (∀ v ∈ strings.Split body 59, ∃ a b, v = a ++ 61 :: b ∧ (61 : Byte) ∉ a ∧
      segKey v = strings.Trim a (lit " ") ∧ segVal v = strings.Trim b (lit " ")) ∧
    parseTicketStr body =
      (if lastAssigned (strings.Split body 59) (lit "NetFunnel.gControl.result") = [] then
        Exec.ret (Ticket.zero, some errMissingResult)
      else Exec.panic 2 (strings.SplitN (strings.Trim
        (lastAssigned (strings.Split body 59) (lit "NetFunnel.gControl.result"))
        (lit "'")) 58 2).length) := by
  have hget : ∀ k, (List.foldl (fun acc v => ScriptVars.set acc (segKey v) (segVal v)) []
      (strings.Split body 59)).get k = lastAssigned (strings.Split body 59) k := by
    intro k
    rw [get_foldl_set]
    rfl
  refine ⟨⟨_, scanSegments_ret _ [] hall, hget⟩, ?_, ?_⟩
  · intro v hv
    obtain ⟨a, b, hcut, hs, ha⟩ := Cut_of_mem v 61 (hall v hv)
    exact ⟨a, b, hs, ha, by simp [segKey, hcut], by simp [segVal, hcut]⟩
  · rw [parseTicketStr_of_scan body _ (scanSegments_ret _ [] hall), hget]

/-- C16, at a body that assigns the result key a token and then the empty value. -/
theorem C16_last_assignment_wins_witness :
    lastAssigned (strings.Split reassignedBody 59) (lit "NetFunnel.gControl.result") = [] ∧
    parseTicketStr reassignedBody = Exec.ret (Ticket.zero, some errMissingResult) := by
  have hl : lastAssigned (strings.Split reassignedBody 59)
      (lit "NetFunnel.gControl.result") = [] := by decide
  have h := (C16_last_assignment_wins reassignedBody (by decide)).2.2
  rw [if_pos hl] at h
  exact ⟨hl, h⟩

/-! ## Trimming -/

theorem dropWhile_single (c : Byte) : ∀ l : GoString,
    ∃ n, l = List.replicate n c ++ l.dropWhile (fun b => decide (b ∈ [c])) ∧
      (l.dropWhile (fun b => decide (b ∈ [c]))).head? ≠ some c := by
  intro l
  induction l with
  | nil => exact ⟨0, rfl, by simp⟩
  | cons b rest ih =>
    by_cases hb : b = c
    · obtain ⟨n, hn, hh⟩ := ih
      have hd : (b :: rest).dropWhile (fun b => decide (b ∈ [c])) =
          rest.dropWhile (fun b => decide (b ∈ [c])) := by
        rw [List.dropWhile_cons_of_pos (by simp [hb])]
      refine ⟨n + 1, ?_, ?_⟩
      · rw [hd, List.replicate_succ, List.cons_append, ← hn, hb]
      · rw [hd]
        exact hh
    · have hd : (b :: rest).dropWhile (fun b => decide (b ∈ [c])) = b :: rest := by
        rw [List.dropWhile_cons_of_neg (by simp [hb])]
      refine ⟨0, ?_, ?_⟩
      · rw [hd]
        rfl
      · rw [hd]
        intro h
        exact hb (by simpa using h)

/-- Trimming with a one-byte cutset removes exactly the leading and the trailing
occurrences of that byte. -/
theorem Trim_single (s : GoString) (c : Byte) :
    ∃ n j, s = List.replicate n c ++ strings.Trim s [c] ++ List.replicate j c ∧
      (strings.Trim s [c]).head? ≠ some c ∧ (strings.Trim s [c]).getLast? ≠ some c := by
  obtain ⟨n, hn, hh⟩ := dropWhile_single c s
  obtain ⟨j, hj, hl⟩ := dropWhile_single c
    (s.dropWhile (fun b => decide (b ∈ [c]))).reverse
  have hd : s.dropWhile (fun b => decide (b ∈ [c])) =
      strings.Trim s [c] ++ List.replicate j c := by
    have := congrArg List.reverse hj
    rw [List.reverse_reverse, List.reverse_append, List.reverse_replicate] at this
    exact this
  refine ⟨n, j, ?_, ?_, ?_⟩
  · rw [List.append_assoc, ← hd]
    exact hn
  · by_cases hnil : strings.Trim s [c] = []
    · simp [hnil]
    · rw [hd, List.head?_append_of_ne_nil _ hnil] at hh
      exact hh
  · unfold strings.Trim
    rw [List.getLast?_reverse]
    exact hl

theorem Trim_id (s : GoString) (c : Byte) (hh : s.head? ≠ some c)
    (hl : s.getLast? ≠ some c) : strings.Trim s [c] = s := by
  have h1 : ∀ l : GoString, l.head? ≠ some c →
      l.dropWhile (fun b => decide (b ∈ [c])) = l := by
    intro l hl1
    cases l with
    | nil => rfl
    | cons b rest =>
      have hb : ¬ b = c := fun e => hl1 (by simp [e])
      simp [List.dropWhile_cons, hb]
  unfold strings.Trim
  rw [h1 s hh, h1 s.reverse (by rw [List.head?_reverse]; exact hl), List.reverse_reverse]

/-- C17 (as stated, refuted): a line feed before the key is not trimmed, so the result
assignment that follows a line break is stored under a key that starts with the line
feed, the lookup of the result key finds nothing, and the missing-key error is
returned; tabs and carriage returns around a value are kept as well. -/
theorem C17_line_feed_not_trimmed :
    segKey (10 :: lit "NetFunnel.gControl.result=x")
      = 10 :: lit "NetFunnel.gControl.result" ∧
    segVal (lit "k=" ++ 9 :: lit "v" ++ [13]) = 9 :: lit "v" ++ [13] ∧
    scanSegments (strings.Split lineBreakBody 59) [] = Exec.ret
      [(10 :: lit "NetFunnel.gControl.result", lit "x"),
       (lit "NetFunnel.gRtype", lit "5101")] ∧
    parseTicketStr lineBreakBody = Exec.ret (Ticket.zero, some errMissingResult) := by
  refine ⟨?_, ?_, ?_, ?_⟩ <;> decide

/-- C17 (amended): for a segment `k=v` (no equals sign in `k`) the loop stores under the
key `k` trimmed the value `v` trimmed, where trimming removes exactly the leading and
trailing spaces: the text is some spaces, the trimmed text, and some spaces, and the
trimmed text neither starts nor ends with a space. A text that neither starts nor ends
with a space (it may start with a tab or a line break) is stored as it is. -/
theorem C17_trims_spaces_only (k x : GoString) (rest : List GoString) (m : ScriptVars)
    (hk : (61 : Byte) ∉ k) :
    scanSegments ((k ++ 61 :: x) :: rest) m =
      scanSegments rest
        (m.set (strings.Trim k (lit " ")) (strings.Trim x (lit " "))) ∧
    (∀ s : GoString, ∃ n j,
      s = List.replicate n 32 ++ strings.Trim s (lit " ") ++ List.replicate j 32 ∧
      (strings.Trim s (lit " ")).head? ≠ some 32 ∧
      (strings.Trim s (lit " ")).getLast? ≠ some 32) ∧
    (∀ s : GoString, s.head? ≠ some 32 → s.getLast? ≠ some 32 →
      strings.Trim s (lit " ") = s) := by
  have hsp : lit " " = [32] := by decide
  refine ⟨?_, ?_, ?_⟩
  · rw [scanSegments_cons_of_mem _ rest m (by simp)]
    simp only [segKey, segVal, Cut_append k x 61 hk, Option.getD_some]
  · intro s
    rw [hsp]
    exact Trim_single s 32
  · intro s hh hl
    rw [hsp]
    exact Trim_id s 32 hh hl

/-- C17 (amended), at a result assignment surrounded by spaces. -/
theorem C17_trims_spaces_only_witness :
    (61 : Byte) ∉ lit "  NetFunnel.gControl.result  " ∧
    scanSegments [lit "  NetFunnel.gControl.result  " ++ 61 :: lit "  x  "] [] =
      Exec.ret [(lit "NetFunnel.gControl.result", lit "x")] := by
  refine ⟨by decide, ?_⟩
  rw [(C17_trims_spaces_only (lit "  NetFunnel.gControl.result  ") (lit "  x  ") [] []
    (by decide)).1]
  decide

/-- C19: against a stub answering status 201 with the sample body, then a status check
answering 202 and a transport failure, `GetTicket` never polls: it panics in the decoder
after the initial request. The polling loop, started by hand with a Ticket after that
request, does stop at the failing check with the connectivity error and the zero
Ticket, after two status checks and one sleep. -/
theorem C19_GetTicket_201_failing_poll_panics (fuel : Nat) :
    (GetTicket (scriptEnv failingPollScript) sampleClient fuel World.init).2
      = some (Exec.panic 2 2) ∧
    (GetTicket (scriptEnv failingPollScript) sampleClient fuel World.init).1
      = { calls := 1,
          log := [Event.request (requestURL sampleClient.ApiEndpoint ticketParams 0)] } ∧
    pollLoop (scriptEnv failingPollScript) sampleClient sampleTicket (fuel + 2)
        { calls := 1, log := [] }
      = ({ calls := 3,
           log := [Event.request
               (requestURL sampleClient.ApiEndpoint (checkParams (lit "ABC")) 0),
             Event.sleep 1000000000,
             Event.request
               (requestURL sampleClient.ApiEndpoint (checkParams (lit "ABC")) 0)] },
         some (Ticket.zero, some errConnectCheck)) := by
  have h : parseTicketStr sampleBody = Exec.panic 2 2 := by decide
  refine ⟨?_, ?_, ?_⟩
  · simp [GetTicket, httpGet, scriptEnv, failingPollScript, h, World.init]
  · simp [GetTicket, httpGet, scriptEnv, failingPollScript, h, World.init]
  · simp [pollLoop, CheckWaitlist, httpGet, scriptEnv, failingPollScript, sleep,
      sampleTicket, sampleClient]

/-! ## Escaping and the query string -/

theorem upperhex_facts : ∀ c : Byte,
    url.unreserved (url.upperhex (c.val / 16)) = true ∧
    url.unreserved (url.upperhex (c.val % 16)) = true ∧
    url.ishex (url.upperhex (c.val / 16)) = true ∧
    url.ishex (url.upperhex (c.val % 16)) = true ∧
    Fin.ofNat (url.unhex (url.upperhex (c.val / 16)) * 16
      + url.unhex (url.upperhex (c.val % 16))) = c := by
  set_option maxRecDepth 100000 in decide

/-- Every byte `url.QueryEscape` writes is an unreserved byte, a percent sign or a
plus sign. -/
theorem QueryEscape_bytes (s : GoString) (b : Byte) (h : b ∈ url.QueryEscape s) :
    url.unreserved b = true ∨ b = 37 ∨ b = 43 := by
  unfold url.QueryEscape at h
  obtain ⟨c, _, hc⟩ := List.mem_flatMap.mp h
  by_cases hu : url.unreserved c = true
  · rw [if_pos hu] at hc
    exact Or.inl ((List.mem_singleton.mp hc) ▸ hu)
  · rw [if_neg hu] at hc
    by_cases hs : c = 32
    · rw [if_pos hs] at hc
      exact Or.inr (Or.inr (List.mem_singleton.mp hc))
    · rw [if_neg hs] at hc
      rcases List.mem_cons.mp hc with h1 | h1
      · exact Or.inr (Or.inl h1)
      · rcases List.mem_cons.mp h1 with h2 | h2
        · exact Or.inl (h2 ▸ (upperhex_facts c).1)
        · exact Or.inl ((List.mem_singleton.mp h2) ▸ (upperhex_facts c).2.1)

theorem QueryEscape_not_mem (s : GoString) (b : Byte) (hu : url.unreserved b = false)
    (h37 : b ≠ 37) (h43 : b ≠ 43) : b ∉ url.QueryEscape s := by
  intro h
  rcases QueryEscape_bytes s b h with h1 | h1 | h1
  · rw [hu] at h1
    cases h1
  · exact h37 h1
  · exact h43 h1

theorem QueryUnescape_cons_of_ne (c : Byte) (cs : GoString) (h : ¬ c = 37) :
    url.QueryUnescape (c :: cs) =
      match url.QueryUnescape cs with
      | .ok t => .ok ((if c = 43 then 32 else c) :: t)
      | .error e => .error e := by
  cases cs with
  | nil => simp [url.QueryUnescape, h]
  | cons a t =>
    cases t with
    | nil => simp [url.QueryUnescape, h]
    | cons a1 t1 => simp [url.QueryUnescape, h]

theorem QueryUnescape_percent (h1 h2 : Byte) (rest : GoString)
    (hx1 : url.ishex h1 = true) (hx2 : url.ishex h2 = true) :
    url.QueryUnescape (37 :: h1 :: h2 :: rest) =
      match url.QueryUnescape rest with
      | .ok t => .ok (Fin.ofNat (url.unhex h1 * 16 + url.unhex h2) :: t)
      | .error e => .error e := by
  simp [url.QueryUnescape, hx1, hx2]

/-- Unescaping an escaped text gives the text back. -/
theorem QueryUnescape_QueryEscape (s : GoString) :
    url.QueryUnescape (url.QueryEscape s) = Except.ok s := by
  induction s with
  | nil => rfl
  | cons c rest ih =>
    have hcons : url.QueryEscape (c :: rest) =
        (if url.unreserved c then [c] else if c = 32 then [43]
          else [37, url.upperhex (c.val / 16), url.upperhex (c.val % 16)])
        ++ url.QueryEscape rest := by
      simp [url.QueryEscape]
    rw [hcons]
    by_cases hu : url.unreserved c = true
    · have h37 : ¬ c = 37 := by
        intro e
        rw [e] at hu
        exact absurd hu (by decide)
      have h43 : ¬ c = 43 := by
        intro e
        rw [e] at hu
        exact absurd hu (by decide)
      rw [if_pos hu, List.singleton_append, QueryUnescape_cons_of_ne c _ h37, ih]
      simp [h43]
    · rw [if_neg hu]
      by_cases hs : c = 32
      · rw [if_pos hs, List.singleton_append,
          QueryUnescape_cons_of_ne 43 _ (by decide), ih]
        simp [hs]
      · rw [if_neg hs]
        obtain ⟨_, _, hx1, hx2, hval⟩ := upperhex_facts c
        simp only [List.cons_append, List.nil_append]
        rw [QueryUnescape_percent _ _ _ hx1 hx2, ih, hval]

theorem parseQueryStep_encodePair (st : url.Values × Option StdError)
    (p : GoString × GoString) :
    url.parseQueryStep st (encodePair p) = (url.Values.Add st.1 p.1 p.2, st.2) := by
  have heq : lit "=" = [61] := by decide
  have hform : encodePair p = url.QueryEscape p.1 ++ 61 :: url.QueryEscape p.2 := by
    simp [encodePair, heq]
  have h59 : (59 : Byte) ∉ encodePair p := by
    rw [hform]
    intro h
    rcases List.mem_append.mp h with h1 | h1
    · exact QueryEscape_not_mem _ 59 (by decide) (by decide) (by decide) h1
    · rcases List.mem_cons.mp h1 with h2 | h2
      · exact absurd h2 (by decide)
      · exact QueryEscape_not_mem _ 59 (by decide) (by decide) (by decide) h2
  have h61 : (61 : Byte) ∉ url.QueryEscape p.1 :=
    QueryEscape_not_mem _ 61 (by decide) (by decide) (by decide)
  have hne : ¬ encodePair p = [] := by
    rw [hform]
    simp
  unfold url.parseQueryStep
  simp only [strings.Contains, h59, decide_False, Bool.false_eq_true, if_false, hne]
  rw [hform, Cut_append _ _ 61 h61]
  simp only [Option.getD_some, QueryUnescape_QueryEscape]

theorem foldl_parseQueryStep (pairs : List (GoString × GoString)) :
    ∀ st : url.Values × Option StdError,
      (pairs.map encodePair).foldl url.parseQueryStep st =
        (pairs.foldl (fun acc p => url.Values.Add acc p.1 p.2) st.1, st.2) := by
  induction pairs with
  | nil => intro st; rfl
  | cons p rest ih =>
    intro st
    rw [List.map_cons, List.foldl_cons, parseQueryStep_encodePair, ih]
    rfl

theorem Split_of_not_mem (a : GoString) (sep : Byte) (h : sep ∉ a) :
    strings.Split a sep = [a] := by
  unfold strings.Split strings.Count
  rw [List.count_eq_zero.mpr h]
  rfl

theorem Split_append (a b : GoString) (sep : Byte) (h : sep ∉ a) :
    strings.Split (a ++ sep :: b) sep = a :: strings.Split b sep := by
  unfold strings.Split strings.Count
  rw [List.count_append, List.count_eq_zero.mpr h, List.count_cons_self, Nat.zero_add]
  show strings.genSplit (a ++ sep :: b) sep (List.count sep b + 2) = _
  conv_lhs => unfold strings.genSplit
  simp only [Cut_append a b sep h]

/-- Splitting a text joined with ampersands gives the parts joined, when no part holds
an ampersand. -/
theorem Split_intercalate : ∀ (pieces : List GoString), pieces ≠ [] →
    (∀ p ∈ pieces, (38 : Byte) ∉ p) →
    strings.Split ((lit "&").intercalate pieces) 38 = pieces := by
  have hamp : lit "&" = [38] := by decide
  intro pieces
  induction pieces with
  | nil => intro h; exact absurd rfl h
  | cons p rest ih =>
    intro _ hall
    cases rest with
    | nil =>
      simp only [List.intercalate, List.intersperse_single, List.flatten_cons,
        List.flatten_nil, List.append_nil]
      exact Split_of_not_mem p 38 (hall p (List.mem_cons_self _ _))
    | cons q r =>
      have hrec := ih (List.cons_ne_nil _ _) (fun u hu => hall u (List.mem_cons_of_mem _ hu))
      have hform : (lit "&").intercalate (p :: q :: r) =
          p ++ 38 :: (lit "&").intercalate (q :: r) := by
        simp [List.intercalate, hamp]
      rw [hform, Split_append p _ 38 (hall p (List.mem_cons_self _ _)), hrec]

theorem Encode_eq_intercalate (v : url.Values) :
    url.Values.Encode v = (lit "&").intercalate ((kvPairs v).map encodePair) := by
  unfold url.Values.Encode kvPairs
  rw [List.map_flatMap]
  simp only [List.map_map]
  rfl

/-- Parsing an encoded parameter set gives, without error, the parameters added one by
one in key order. -/
theorem ParseQuery_Encode (v : url.Values) :
    url.ParseQuery (url.Values.Encode v) =
      ((kvPairs v).foldl (fun acc p => url.Values.Add acc p.1 p.2) [], none) := by
  unfold url.ParseQuery
  rw [Encode_eq_intercalate]
  by_cases hnil : kvPairs v = []
  · rw [hnil]
    rfl
  · have hne : (kvPairs v).map encodePair ≠ [] := by
      intro h
      exact hnil (List.map_eq_nil_iff.mp h)
    have hall : ∀ p ∈ (kvPairs v).map encodePair, (38 : Byte) ∉ p := by
      intro p hp
      obtain ⟨q, _, hq⟩ := List.mem_map.mp hp
      rw [← hq]
      intro h
      have heq : lit "=" = [61] := by decide
      simp only [encodePair, heq, List.mem_append, List.mem_singleton] at h
      rcases h with (h1 | h1) | h1
      · exact QueryEscape_not_mem _ 38 (by decide) (by decide) (by decide) h1
      · exact absurd h1 (by decide)
      · exact QueryEscape_not_mem _ 38 (by decide) (by decide) (by decide) h1
    rw [Split_intercalate _ hne hall, foldl_parseQueryStep]

theorem kvPairs_checkParams (K : GoString) :
    kvPairs (checkParams K) =
      [(lit "js", lit "yes"), (lit "key", K), (lit "nfid", lit "0"),
       (lit "opcode", lit "5002"), (lit "prefix", lit "NetFunnel.gRtype=5002;"),
       (lit "ttl", lit "0")] := by
  rfl

theorem kvPairs_dispatchParams (K : GoString) :
    kvPairs (dispatchParams K) =
      [(lit "aid", lit "act_1"), (lit "js", lit "yes"), (lit "key", K),
       (lit "nfid", lit "0"), (lit "opcode", lit "5004"),
       (lit "prefix", lit "NetFunnel.gRtype=5004;"), (lit "sid", lit "service_1")] := by
  rfl

theorem ParseQuery_checkParams (K : GoString) :
    url.ParseQuery (url.Values.Encode (checkParams K)) =
      ([(lit "js", [lit "yes"]), (lit "key", [K]), (lit "nfid", [lit "0"]),
        (lit "opcode", [lit "5002"]), (lit "prefix", [lit "NetFunnel.gRtype=5002;"]),
        (lit "ttl", [lit "0"])], none) := by
  rw [ParseQuery_Encode, kvPairs_checkParams]
  rfl

theorem ParseQuery_dispatchParams (K : GoString) :
    url.ParseQuery (url.Values.Encode (dispatchParams K)) =
      ([(lit "aid", [lit "act_1"]), (lit "js", [lit "yes"]), (lit "key", [K]),
        (lit "nfid", [lit "0"]), (lit "opcode", [lit "5004"]),
        (lit "prefix", [lit "NetFunnel.gRtype=5004;"]), (lit "sid", [lit "service_1"])],
        none) := by
  rw [ParseQuery_Encode, kvPairs_dispatchParams]
  rfl

theorem sortByKey_checkParams (K : GoString) :
    url.sortByKey (checkParams K) =
      [(lit "js", [lit "yes"]), (lit "key", [K]), (lit "nfid", [lit "0"]),
       (lit "opcode", [lit "5002"]), (lit "prefix", [lit "NetFunnel.gRtype=5002;"]),
       (lit "ttl", [lit "0"])] := by
  rfl

theorem sortByKey_dispatchParams (K : GoString) :
    url.sortByKey (dispatchParams K) =
      [(lit "aid", [lit "act_1"]), (lit "js", [lit "yes"]), (lit "key", [K]),
       (lit "nfid", [lit "0"]), (lit "opcode", [lit "5004"]),
       (lit "prefix", [lit "NetFunnel.gRtype=5004;"]), (lit "sid", [lit "service_1"])] := by
  rfl

/-- C11: for every key, parsing the query string an operation builds gives, without
error, that operation's opcode and its fixed parameters and nothing else, each with one
value; the ticket-request query string is the one text of the specification. -/
theorem C11_fixed_parameters (K : GoString) :
    url.ParseQuery (url.Values.Encode (checkParams K)) =
      ([(lit "js", [lit "yes"]), (lit "key", [K]), (lit "nfid", [lit "0"]),
        (lit "opcode", [lit "5002"]), (lit "prefix", [lit "NetFunnel.gRtype=5002;"]),
        (lit "ttl", [lit "0"])], none) ∧
    url.ParseQuery (url.Values.Encode ticketParams) =
      ([(lit "aid", [lit "act_1"]), (lit "js", [lit "yes"]), (lit "nfid", [lit "0"]),
        (lit "opcode", [lit "5101"]), (lit "prefix", [lit "NetFunnel.gRtype=5101;"]),
        (lit "sid", [lit "service_1"])], none) ∧
    url.ParseQuery (url.Values.Encode (dispatchParams K)) =
      ([(lit "aid", [lit "act_1"]), (lit "js", [lit "yes"]), (lit "key", [K]),
        (lit "nfid", [lit "0"]), (lit "opcode", [lit "5004"]),
        (lit "prefix", [lit "NetFunnel.gRtype=5004;"]), (lit "sid", [lit "service_1"])],
        none) ∧
    url.Values.Encode ticketParams =
      lit "aid=act_1&js=yes&nfid=0&opcode=5101&prefix=NetFunnel.gRtype%3D5101%3B&sid=service_1" := by
  refine ⟨ParseQuery_checkParams K, ?_, ParseQuery_dispatchParams K, ?_⟩
  · decide
  · decide

theorem Encode_checkParams (K : GoString) :
    url.Values.Encode (checkParams K) =
      lit "js=yes&key=" ++ url.QueryEscape K
        ++ lit "&nfid=0&opcode=5002&prefix=NetFunnel.gRtype%3D5002%3B&ttl=0" := by
  have hnested : url.Values.Encode (checkParams K) =
      lit "js=yes" ++ 38 :: ((lit "key=" ++ url.QueryEscape K) ++ 38 :: (lit "nfid=0"
        ++ 38 :: (lit "opcode=5002" ++ 38 :: (lit "prefix=NetFunnel.gRtype%3D5002%3B"
        ++ 38 :: lit "ttl=0")))) := by rfl
  have hpre : lit "js=yes&key=" = lit "js=yes" ++ 38 :: lit "key=" := by decide
  have hpost : lit "&nfid=0&opcode=5002&prefix=NetFunnel.gRtype%3D5002%3B&ttl=0" =
      38 :: (lit "nfid=0" ++ 38 :: (lit "opcode=5002" ++ 38 ::
        (lit "prefix=NetFunnel.gRtype%3D5002%3B" ++ 38 :: lit "ttl=0"))) := by decide
  rw [hnested, hpre, hpost]
  simp only [List.append_assoc, List.cons_append]

theorem Encode_dispatchParams (K : GoString) :
    url.Values.Encode (dispatchParams K) =
      lit "aid=act_1&js=yes&key=" ++ url.QueryEscape K
        ++ lit "&nfid=0&opcode=5004&prefix=NetFunnel.gRtype%3D5004%3B&sid=service_1" := by
  have hnested : url.Values.Encode (dispatchParams K) =
      lit "aid=act_1" ++ 38 :: (lit "js=yes" ++ 38 :: ((lit "key=" ++ url.QueryEscape K)
        ++ 38 :: (lit "nfid=0" ++ 38 :: (lit "opcode=5004" ++ 38 ::
        (lit "prefix=NetFunnel.gRtype%3D5004%3B" ++ 38 :: lit "sid=service_1"))))) := by rfl
  have hpre : lit "aid=act_1&js=yes&key=" =
      lit "aid=act_1" ++ 38 :: (lit "js=yes" ++ 38 :: lit "key=") := by decide
  have hpost : lit "&nfid=0&opcode=5004&prefix=NetFunnel.gRtype%3D5004%3B&sid=service_1" =
      38 :: (lit "nfid=0" ++ 38 :: (lit "opcode=5004" ++ 38 ::
        (lit "prefix=NetFunnel.gRtype%3D5004%3B" ++ 38 :: lit "sid=service_1"))) := by
    decide
  rw [hnested, hpre, hpost]
  simp only [List.append_assoc, List.cons_append]

theorem escaped_byte_facts : ∀ b : Byte, (url.unreserved b = true ∨ b = 37 ∨ b = 43) →
    b ≠ 38 ∧ b ≠ 61 ∧ b ≠ 59 ∧ b ≠ 63 ∧ b ≠ 35 ∧ b ≠ 32 ∧ b.val < 128 := by
  set_option maxRecDepth 100000 in decide

/-- C12: for every key, the escaped key consists of unreserved bytes, percent signs and
plus signs only (no ampersand, equals sign, semicolon, question mark, hash, space or
non-ASCII byte), it is the only part of the query string of `CheckWaitlist` and
`DispatchTicket` that depends on the key, and parsing the query string gives back the
parameter set without error, with `key` equal to the key. Parsing what `Values.Encode`
writes gives back the parameters of any parameter set. -/
theorem C12_key_roundtrip (K : GoString) :
    (∀ b ∈ url.QueryEscape K, (url.unreserved b = true ∨ b = 37 ∨ b = 43) ∧
      b ≠ 38 ∧ b ≠ 61 ∧ b ≠ 59 ∧ b ≠ 63 ∧ b ≠ 35 ∧ b ≠ 32 ∧ b.val < 128) ∧
    url.QueryUnescape (url.QueryEscape K) = Except.ok K ∧
    url.Values.Encode (checkParams K) =
      lit "js=yes&key=" ++ url.QueryEscape K
        ++ lit "&nfid=0&opcode=5002&prefix=NetFunnel.gRtype%3D5002%3B&ttl=0" ∧
    url.Values.Encode (dispatchParams K) =
      lit "aid=act_1&js=yes&key=" ++ url.QueryEscape K
        ++ lit "&nfid=0&opcode=5004&prefix=NetFunnel.gRtype%3D5004%3B&sid=service_1" ∧
    url.ParseQuery (url.Values.Encode (checkParams K))
      = (url.sortByKey (checkParams K), none) ∧
    url.ParseQuery (url.Values.Encode (dispatchParams K))
      = (url.sortByKey (dispatchParams K), none) ∧
    url.Values.Get (url.ParseQuery (url.Values.Encode (checkParams K))).1 (lit "key") = K ∧
    url.Values.Get (url.ParseQuery (url.Values.Encode (dispatchParams K))).1 (lit "key")
      = K ∧
    (∀ v : url.Values, url.ParseQuery (url.Values.Encode v) =
      ((kvPairs v).foldl (fun acc p => url.Values.Add acc p.1 p.2) [], none)) := by
  refine ⟨?_, QueryUnescape_QueryEscape K, Encode_checkParams K, Encode_dispatchParams K,
    ?_, ?_, ?_, ?_, ParseQuery_Encode⟩
  · intro b hb
    have h := QueryEscape_bytes K b hb
    exact ⟨h, escaped_byte_facts b h⟩
  · rw [ParseQuery_checkParams, sortByKey_checkParams]
  · rw [ParseQuery_dispatchParams, sortByKey_dispatchParams]
  · rw [ParseQuery_checkParams]
    rfl
  · rw [ParseQuery_dispatchParams]
    rfl

/-- C12, at a key with an ampersand, an equals sign, a semicolon, a question mark, a
hash, a percent sign, a plus sign, a space and the byte 233. -/
theorem C12_key_roundtrip_witness :
    url.Values.Encode (checkParams awkwardKey) =
      lit "js=yes&key=a%26b%3Dc%3Bd%3Fe%23f%25g%2Bh+i%E9&nfid=0&opcode=5002&prefix=NetFunnel.gRtype%3D5002%3B&ttl=0" ∧
    url.Values.Get (url.ParseQuery (url.Values.Encode (checkParams awkwardKey))).1
      (lit "key") = awkwardKey := by
  exact ⟨by decide, (C12_key_roundtrip awkwardKey).2.2.2.2.2.2.1⟩

/-! ## What the decoder and `GetTicket` can return -/

/-- The decoder either panics or returns the missing-key error. -/
theorem parseTicketStr_cases (body : GoString) :
    (∃ i n, parseTicketStr body = Exec.panic i n) ∨
    parseTicketStr body = Exec.ret (Ticket.zero, some errMissingResult) := by
  by_cases hall : ∀ v ∈ strings.Split body 59, (61 : Byte) ∈ v
  · rw [parseTicketStr_of_scan body _ (scanSegments_ret _ [] hall)]
    split
    · exact Or.inr rfl
    · exact Or.inl ⟨_, _, rfl⟩
  · have hex : ∃ v ∈ strings.Split body 59, (61 : Byte) ∉ v := by
      by_contra hno
      exact hall (fun v hv => by_contra (fun hv2 => hno ⟨v, hv, hv2⟩))
    refine Or.inl ⟨1, 1, ?_⟩
    unfold parseTicketStr
    rw [scanSegments_panic _ [] hex]

/-- What `GetTicket` returns: a panic of the decoder, or the zero Ticket with the
connectivity error, the read error or the missing-key error. -/
theorem GetTicket_cases (env : Env) (c : Client) (fuel : Nat) (w : World) :
    (∃ i n, (GetTicket env c fuel w).2 = some (Exec.panic i n)) ∨
    (GetTicket env c fuel w).2 = some (Exec.ret (Ticket.zero, some errConnect)) ∨
    (GetTicket env c fuel w).2 = some (Exec.ret (Ticket.zero, some errReadBody)) ∨
    (GetTicket env c fuel w).2 = some (Exec.ret (Ticket.zero, some errMissingResult)) := by
  simp only [GetTicket, httpGet]
  cases env.httpGet w.calls (requestURL c.ApiEndpoint ticketParams
      (env.unixMilli w.calls)) with
  | none => exact Or.inr (Or.inl rfl)
  | some resp =>
    obtain ⟨status, bodyOpt⟩ := resp
    cases bodyOpt with
    | none => exact Or.inr (Or.inr (Or.inl rfl))
    | some respBytes =>
      simp only []
      rcases parseTicketStr_cases respBytes with ⟨i, n, hp⟩ | hp
      · rw [hp]
        exact Or.inl ⟨i, n, rfl⟩
      · rw [hp]
        exact Or.inr (Or.inr (Or.inr rfl))

/-- The errors `GetTicket` can return begin with "failed", the unexpected-status errors
with "unexpected". -/
theorem failed_ne_unexpected (s : Int) :
    errConnect ≠ errUnexpectedStatus s ∧ errReadBody ≠ errUnexpectedStatus s ∧
    errMissingResult ≠ errUnexpectedStatus s := by
  have hu : lit "unexpected HTTP Status Code. (HTTP "
      = 117 :: lit "nexpected HTTP Status Code. (HTTP " := by decide
  have hc : errConnect = GoError.new (102 :: lit "ailed to connect to the netfunnel server") := by
    decide
  have hr : errReadBody = GoError.new (102 :: lit "ailed to read response body") := by
    decide
  have hm : errMissingResult = GoError.new (102 ::
      lit "ailed to parse response body: Cannot find 'NetFunnel.gControl.result' key") := by
    decide
  have key : ∀ rest : GoString, GoError.new (102 :: rest) ≠ errUnexpectedStatus s := by
    intro rest h
    simp only [errUnexpectedStatus, hu, List.cons_append, GoError.new.injEq] at h
    exact absurd (List.cons.inj h).1 (by decide)
  exact ⟨hc ▸ key _, hr ▸ key _, hm ▸ key _⟩

theorem GetTicket_never_unexpected (env : Env) (c : Client) (fuel : Nat) (w w1 : World)
    (t : Ticket) (s : Int) :
    GetTicket env c fuel w ≠ (w1, some (Exec.ret (t, some (errUnexpectedStatus s)))) := by
  intro h
  have h2 : (GetTicket env c fuel w).2
      = some (Exec.ret (t, some (errUnexpectedStatus s))) := by rw [h]
  obtain ⟨h1, h3, h4⟩ := failed_ne_unexpected s
  rcases GetTicket_cases env c fuel w with ⟨i, n, hp⟩ | hp | hp | hp
  · rw [hp] at h2
    cases h2
  · rw [hp] at h2
    simp only [Option.some.injEq, Exec.ret.injEq, Prod.mk.injEq] at h2
    exact h1 h2.2
  · rw [hp] at h2
    simp only [Option.some.injEq, Exec.ret.injEq, Prod.mk.injEq] at h2
    exact h3 h2.2
  · rw [hp] at h2
    simp only [Option.some.injEq, Exec.ret.injEq, Prod.mk.injEq] at h2
    exact h4 h2.2

/-- C7: against a stub answering status 503 with the sample body, `GetTicket` issues the
one request and then panics in the decoder instead of returning the unexpected-status
error; for no stub does `GetTicket` return an unexpected-status error, so the default
branch of its status switch (lines 102-103) is never reached. -/
theorem C7_GetTicket_503_panics (fuel : Nat) :
    (GetTicket (constEnv 503 sampleBody) sampleClient fuel World.init).2
      = some (Exec.panic 2 2) ∧
    (GetTicket (constEnv 503 sampleBody) sampleClient fuel World.init).1
      = { calls := 1,
          log := [Event.request (requestURL sampleClient.ApiEndpoint ticketParams 0)] } ∧
    (∀ (env : Env) (c : Client) (fuel1 : Nat) (w w1 : World) (t : Ticket) (s : Int),
      GetTicket env c fuel1 w
        ≠ (w1, some (Exec.ret (t, some (errUnexpectedStatus s))))) := by
  have h : parseTicketStr sampleBody = Exec.panic 2 2 := by decide
  refine ⟨?_, ?_, GetTicket_never_unexpected⟩
  · simp [GetTicket, httpGet, constEnv, h, World.init]
  · simp [GetTicket, httpGet, constEnv, h, World.init]

end NetFunnel
